import Mathlib

/-!
Verification of the knowledge-server consolidation pipeline and activation
engine against its natural-language specification.

The definitions below are shallow embeddings of the TypeScript source:

* `computeStrength` — `src/consolidation/decay.ts` (forgetting curve)
* `insertNewEntry` — `ConsolidationEngine.insertNewEntry` in
  `src/consolidation/consolidate.ts`
* `computeNewCursor` — the cursor-advancement logic at the end of
  `ConsolidationEngine.consolidate`
* `cosineSimilarity`, `reconsolidateStep` — `src/activation/embeddings.ts`
  and the nearest-neighbour branch of `ConsolidationEngine.reconsolidate`
* `decideMergeResult` — the response handling of `ConsolidationLLM.decideMerge`
* `applyContradictionResolution` and friends — `KnowledgeDB` in
  `src/db/database.ts`, with the SQLite tables modelled as a function from
  ids to rows plus a relation list
* `filterProcessedEpisodes`, `recordEpisode` — `EpisodeReader.segmentSession`
  and `KnowledgeDB.recordEpisode`
* `scoreEntries`, `thresholdFilter`, `activationRanked` —
  `ActivationEngine.activate` in `src/activation/activate.ts`

Machine floats are modelled as real numbers; timestamps as integers.
-/

/-- Knowledge kinds, from `KnowledgeType` in `src/types.ts`. -/
inductive KnowledgeType where
  | fact
  | principle
  | rec_pattern
  | decision
  | procedure
deriving DecidableEq, Repr

/-- Type-specific base half-life in days, from `config.decay.typeHalfLife`
in `src/config.ts` (defaults, no env overrides). -/
def typeHalfLife : KnowledgeType → ℝ
  | .fact => 30
  | .principle => 180
  | .rec_pattern => 90
  | .decision => 120
  | .procedure => 365

/-- Observation bonus from `computeStrength` in `src/consolidation/decay.ts`:
`1 + Math.log2(1 + entry.observationCount)`. -/
noncomputable def observationBonus (observationCount : ℕ) : ℝ :=
  1 + Real.logb 2 (1 + (observationCount : ℝ))

/-- Access bonus from `computeStrength` in `src/consolidation/decay.ts`:
`1 + Math.log2(1 + entry.accessCount)`. -/
noncomputable def accessBonus (accessCount : ℕ) : ℝ :=
  1 + Real.logb 2 (1 + (accessCount : ℝ))

/-- Combined effective half-life,
`baseHalfLife * observationBonus * accessBonus`. -/
noncomputable def effectiveHalfLife (t : KnowledgeType) (o a : ℕ) : ℝ :=
  typeHalfLife t * observationBonus o * accessBonus a

/-- Exponential decay factor,
`Math.exp((-Math.LN2 * daysSinceAccess) / effectiveHalfLife)`. -/
noncomputable def decayFactor (t : KnowledgeType) (o a : ℕ) (daysSinceAccess : ℝ) : ℝ :=
  Real.exp (-Real.log 2 * daysSinceAccess / effectiveHalfLife t o a)

/-- Strength of an entry, given the number of days since last access.
This is the body of `computeStrength` in `src/consolidation/decay.ts`:
`Math.max(0, Math.min(1, entry.confidence * decayFactor))`. -/
noncomputable def computeStrength (t : KnowledgeType) (confidence : ℝ) (o a : ℕ)
    (daysSinceAccess : ℝ) : ℝ :=
  max 0 (min 1 (confidence * decayFactor t o a daysSinceAccess))

/-- Decay-relevant fields of a knowledge entry (timestamps in unix ms). -/
structure DecayEntry where
  ktype : KnowledgeType
  confidence : ℝ
  observationCount : ℕ
  accessCount : ℕ
  lastAccessedAt : ℝ

/-- Milliseconds in a day, `1000 * 60 * 60 * 24`. -/
def DAY_MS : ℝ := 1000 * 60 * 60 * 24

/-- The entry-level `computeStrength(entry, nowMs)` from
`src/consolidation/decay.ts`: `daysSinceAccess = (nowMs - entry.lastAccessedAt)
/ (1000 * 60 * 60 * 24)` followed by the decay formula. -/
noncomputable def computeStrengthMs (e : DecayEntry) (nowMs : ℝ) : ℝ :=
  computeStrength e.ktype e.confidence e.observationCount e.accessCount
    ((nowMs - e.lastAccessedAt) / DAY_MS)

/-- Strength formula as written in the specification (section 4.4):
`strength = clamp(confidence * exp(-ln2 * days / (baseHalfLife * (1 + log2(1 +
observationCount)) * (1 + log2(1 + accessCount)))), 0, 1)`. Used to compare
the spec wording against the source-derived `computeStrength`. -/
noncomputable def specClampStrength (t : KnowledgeType) (confidence : ℝ) (o a : ℕ)
    (daysSinceAccess : ℝ) : ℝ :=
  max 0 (min 1 (confidence *
    Real.exp (-(Real.log 2 * daysSinceAccess /
      (typeHalfLife t * (1 + Real.logb 2 (1 + (o : ℝ))) *
        (1 + Real.logb 2 (1 + (a : ℝ))))))))

-- Basic facts about the decay quantities.

theorem typeHalfLife_pos (t : KnowledgeType) : 0 < typeHalfLife t := by
  cases t <;> norm_num [typeHalfLife]

theorem one_le_observationBonus (o : ℕ) : 1 ≤ observationBonus o := by
  unfold observationBonus
  have h0 : (0 : ℝ) ≤ (o : ℝ) := Nat.cast_nonneg o
  have h : (0 : ℝ) ≤ Real.logb 2 (1 + (o : ℝ)) :=
    Real.logb_nonneg one_lt_two (by linarith)
  linarith

theorem one_le_accessBonus (a : ℕ) : 1 ≤ accessBonus a := by
  unfold accessBonus
  have h0 : (0 : ℝ) ≤ (a : ℝ) := Nat.cast_nonneg a
  have h : (0 : ℝ) ≤ Real.logb 2 (1 + (a : ℝ)) :=
    Real.logb_nonneg one_lt_two (by linarith)
  linarith

theorem effectiveHalfLife_pos (t : KnowledgeType) (o a : ℕ) :
    0 < effectiveHalfLife t o a := by
  unfold effectiveHalfLife
  have h1 := typeHalfLife_pos t
  have h2 : (0 : ℝ) < observationBonus o :=
    lt_of_lt_of_le one_pos (one_le_observationBonus o)
  have h3 : (0 : ℝ) < accessBonus a :=
    lt_of_lt_of_le one_pos (one_le_accessBonus a)
  exact mul_pos (mul_pos h1 h2) h3

theorem decayFactor_pos (t : KnowledgeType) (o a : ℕ) (d : ℝ) :
    0 < decayFactor t o a d := Real.exp_pos _

theorem decayFactor_le_one (t : KnowledgeType) (o a : ℕ) {d : ℝ} (hd : 0 ≤ d) :
    decayFactor t o a d ≤ 1 := by
  unfold decayFactor
  rw [Real.exp_le_one_iff]
  have hl : (0 : ℝ) < Real.log 2 := Real.log_pos one_lt_two
  have he := effectiveHalfLife_pos t o a
  apply div_nonpos_of_nonpos_of_nonneg _ he.le
  nlinarith

theorem decayFactor_strict_anti (t : KnowledgeType) (o a : ℕ) {d₁ d₂ : ℝ}
    (h : d₁ < d₂) : decayFactor t o a d₂ < decayFactor t o a d₁ := by
  unfold decayFactor
  rw [Real.exp_lt_exp]
  have hl : (0 : ℝ) < Real.log 2 := Real.log_pos one_lt_two
  have he := effectiveHalfLife_pos t o a
  apply div_lt_div_of_pos_right _ he
  nlinarith

theorem observationBonus_mono {o₁ o₂ : ℕ} (h : o₁ ≤ o₂) :
    observationBonus o₁ ≤ observationBonus o₂ := by
  unfold observationBonus
  have hc : (o₁ : ℝ) ≤ (o₂ : ℝ) := Nat.cast_le.mpr h
  have h0 : (0 : ℝ) < 1 + (o₁ : ℝ) := by
    have : (0 : ℝ) ≤ (o₁ : ℝ) := Nat.cast_nonneg o₁
    linarith
  have := Real.logb_le_logb_of_le one_lt_two h0 (by linarith : (1 : ℝ) + o₁ ≤ 1 + o₂)
  linarith

theorem accessBonus_mono {a₁ a₂ : ℕ} (h : a₁ ≤ a₂) :
    accessBonus a₁ ≤ accessBonus a₂ := by
  unfold accessBonus
  have hc : (a₁ : ℝ) ≤ (a₂ : ℝ) := Nat.cast_le.mpr h
  have h0 : (0 : ℝ) < 1 + (a₁ : ℝ) := by
    have : (0 : ℝ) ≤ (a₁ : ℝ) := Nat.cast_nonneg a₁
    linarith
  have := Real.logb_le_logb_of_le one_lt_two h0 (by linarith : (1 : ℝ) + a₁ ≤ 1 + a₂)
  linarith

theorem decayFactor_mono_halfLife (t : KnowledgeType) {o₁ o₂ a₁ a₂ : ℕ} {d : ℝ}
    (hd : 0 ≤ d) (ho : o₁ ≤ o₂) (ha : a₁ ≤ a₂) :
    decayFactor t o₁ a₁ d ≤ decayFactor t o₂ a₂ d := by
  unfold decayFactor
  rw [Real.exp_le_exp]
  have hl : (0 : ℝ) < Real.log 2 := Real.log_pos one_lt_two
  have he₁ := effectiveHalfLife_pos t o₁ a₁
  have he₂ := effectiveHalfLife_pos t o₂ a₂
  have hee : effectiveHalfLife t o₁ a₁ ≤ effectiveHalfLife t o₂ a₂ := by
    unfold effectiveHalfLife
    have h1 := typeHalfLife_pos t
    have h2 := one_le_observationBonus o₁
    have h3 := one_le_accessBonus a₁
    have h4 := observationBonus_mono ho
    have h5 := accessBonus_mono ha
    exact mul_le_mul (mul_le_mul_of_nonneg_left h4 h1.le) h5 (by linarith)
      (mul_nonneg h1.le (by linarith))
  have hnum : -Real.log 2 * d ≤ 0 := by nlinarith
  have hinv : (effectiveHalfLife t o₂ a₂)⁻¹ ≤ (effectiveHalfLife t o₁ a₁)⁻¹ :=
    inv_anti₀ he₁ hee
  rw [div_eq_mul_inv, div_eq_mul_inv]
  exact mul_le_mul_of_nonpos_left hinv hnum

/-- On the unclamped region the strength is just confidence times decay. -/
theorem computeStrength_eq_of_le (t : KnowledgeType) {c : ℝ} (o a : ℕ) {d : ℝ}
    (hc0 : 0 ≤ c) (hc1 : c ≤ 1) (hd : 0 ≤ d) :
    computeStrength t c o a d = c * decayFactor t o a d := by
  unfold computeStrength
  have hpos := decayFactor_pos t o a d
  have hle := decayFactor_le_one t o a hd
  have h1 : c * decayFactor t o a d ≤ 1 := by nlinarith
  have h0 : 0 ≤ c * decayFactor t o a d := by nlinarith
  rw [min_eq_right h1, max_eq_right h0]

/-- Fields of an extracted candidate entry, from `ExtractedKnowledge` in
`src/consolidation/llm.ts`. Fields not used by `insertNewEntry` are omitted. -/
structure ExtractedKnowledge where
  ktype : KnowledgeType
  content : String
  topics : List String
  confidence : ℝ

/-- Entry record produced by `ConsolidationEngine.insertNewEntry`
(fields relevant to strength and confidence). -/
structure InsertedEntry where
  ktype : KnowledgeType
  content : String
  topics : List String
  confidence : ℝ
  strength : ℝ
  accessCount : ℕ
  observationCount : ℕ

/-- Shallow embedding of `ConsolidationEngine.insertNewEntry` in
`src/consolidation/consolidate.ts`: confidence is
`Math.max(0, Math.min(1, entry.confidence || 0.5))` (the JS `||` replaces a
zero confidence by 0.5), strength is set to `1.0`, `accessCount: 0`,
`observationCount: 1`. -/
noncomputable def insertNewEntry (e : ExtractedKnowledge) : InsertedEntry :=
  { ktype := e.ktype
    content := e.content
    topics := e.topics
    confidence := max 0 (min 1 (if e.confidence = 0 then 0.5 else e.confidence))
    strength := 1.0
    accessCount := 0
    observationCount := 1 }

/-- Claim C4: `computeStrength` equals the spec clamp formula
`clamp(confidence * exp(-ln2 * days / (baseHalfLife * (1 + log2(1 + obs)) *
(1 + log2(1 + acc)))), 0, 1)`, both at the day level and at the
entry/timestamp level; and a fact entry with confidence 0.9, observation
count 1, access count 0, last accessed 60 days ago has effective half-life
60 days and strength exactly 0.9 * exp(-ln 2) = 0.45. -/
theorem computeStrength_spec_formula_and_fact_example :
    (∀ (t : KnowledgeType) (c : ℝ) (o a : ℕ) (d : ℝ),
        computeStrength t c o a d = specClampStrength t c o a d) ∧
    (∀ (e : DecayEntry) (nowMs : ℝ),
        computeStrengthMs e nowMs =
          specClampStrength e.ktype e.confidence e.observationCount e.accessCount
            ((nowMs - e.lastAccessedAt) / DAY_MS)) ∧
    effectiveHalfLife .fact 1 0 = 60 ∧
    computeStrength .fact 0.9 1 0 60 = 0.9 * Real.exp (-Real.log 2) ∧
    computeStrength .fact 0.9 1 0 60 = 0.45 := by
  have hb2 : Real.logb 2 2 = 1 := Real.logb_self_eq_one one_lt_two
  have hobs : observationBonus 1 = 2 := by
    unfold observationBonus
    norm_num [hb2]
  have hacc : accessBonus 0 = 1 := by
    unfold accessBonus
    norm_num
  have heff : effectiveHalfLife .fact 1 0 = 60 := by
    unfold effectiveHalfLife
    rw [hobs, hacc]
    norm_num [typeHalfLife]
  have hfe : ∀ (t : KnowledgeType) (c : ℝ) (o a : ℕ) (d : ℝ),
      computeStrength t c o a d = specClampStrength t c o a d := by
    intro t c o a d
    unfold computeStrength specClampStrength decayFactor effectiveHalfLife
      observationBonus accessBonus
    ring_nf
  have hdf : decayFactor .fact 1 0 60 = Real.exp (-Real.log 2) := by
    unfold decayFactor
    rw [heff]
    congr 1
    ring
  refine ⟨hfe, fun e nowMs => hfe _ _ _ _ _, heff, ?_, ?_⟩
  · unfold computeStrength
    rw [hdf]
    have h1 : Real.exp (-Real.log 2) = 1 / 2 := by
      rw [Real.exp_neg, Real.exp_log two_pos]
      norm_num
    rw [h1]
    norm_num
  · unfold computeStrength
    rw [hdf, Real.exp_neg, Real.exp_log two_pos]
    norm_num

/-- Counterexample to claim C5 as stated: for a zero-confidence entry the
strength is constantly 0, so `computeStrength` is not strictly decreasing in
`daysSinceLastAccess` for every fixed type / confidence / observation count /
access count. Witnessed at type `fact`, confidence 0, observation count 1,
access count 0, days 0 versus 1. -/
theorem computeStrength_not_strictly_decreasing :
    ¬ (∀ (t : KnowledgeType) (c : ℝ) (o a : ℕ) (d₁ d₂ : ℝ),
        0 ≤ d₁ → d₁ < d₂ →
        computeStrength t c o a d₂ < computeStrength t c o a d₁) := by
  intro h
  have h0 : ∀ d : ℝ, computeStrength KnowledgeType.fact 0 1 0 d = 0 := by
    intro d
    unfold computeStrength
    rw [zero_mul]
    norm_num
  have := h .fact 0 1 0 0 1 le_rfl one_pos
  rw [h0 0, h0 1] at this
  exact lt_irrefl 0 this

/-- Claim C5, amended: with fixed type, observation count and access count,
`computeStrength` is strictly decreasing in `daysSinceLastAccess` provided the
confidence is positive (the schema bounds confidence by 1; at confidence 0 the
strength is constantly 0); and with fixed type, confidence (nonnegative, per
the schema CHECK) and nonnegative elapsed days it is non-decreasing in
`observationCount` and in `accessCount`. -/
theorem computeStrength_monotonicity
    (t : KnowledgeType) (c : ℝ) (o a o₁ o₂ a₁ a₂ : ℕ) (d d₁ d₂ : ℝ)
    (hc0 : 0 < c) (hc1 : c ≤ 1) (hd₁ : 0 ≤ d₁) (hd₁₂ : d₁ < d₂)
    (hcn : 0 ≤ c) (hd : 0 ≤ d) (ho : o₁ ≤ o₂) (ha : a₁ ≤ a₂) :
    computeStrength t c o a d₂ < computeStrength t c o a d₁ ∧
    computeStrength t c o₁ a d ≤ computeStrength t c o₂ a d ∧
    computeStrength t c o a₁ d ≤ computeStrength t c o a₂ d := by
  refine ⟨?_, ?_, ?_⟩
  · rw [computeStrength_eq_of_le t o a hc0.le hc1 hd₁,
      computeStrength_eq_of_le t o a hc0.le hc1 (le_of_lt (lt_of_le_of_lt hd₁ hd₁₂))]
    exact mul_lt_mul_of_pos_left (decayFactor_strict_anti t o a hd₁₂) hc0
  · unfold computeStrength
    have := decayFactor_mono_halfLife t hd ho (le_refl a)
    have hmul : c * decayFactor t o₁ a d ≤ c * decayFactor t o₂ a d :=
      mul_le_mul_of_nonneg_left this hcn
    exact max_le_max (le_refl 0) (min_le_min (le_refl 1) hmul)
  · unfold computeStrength
    have := decayFactor_mono_halfLife t hd (le_refl o) ha
    have hmul : c * decayFactor t o a₁ d ≤ c * decayFactor t o a₂ d :=
      mul_le_mul_of_nonneg_left this hcn
    exact max_le_max (le_refl 0) (min_le_min (le_refl 1) hmul)

/-- Witness for the amended C5 theorem at type fact, confidence 1/2,
days 0 versus 1, observation counts 1 versus 2, access counts 0 versus 3. -/
theorem computeStrength_monotonicity_witness :
    computeStrength .fact (1/2) 1 0 1 < computeStrength .fact (1/2) 1 0 0 ∧
    computeStrength .fact (1/2) 1 0 2 ≤ computeStrength .fact (1/2) 2 0 2 ∧
    computeStrength .fact (1/2) 1 0 2 ≤ computeStrength .fact (1/2) 1 3 2 := by
  have h := computeStrength_monotonicity .fact (1/2) 1 0 1 2 0 3 2 0 1
    (by norm_num) (by norm_num) le_rfl one_pos (by norm_num) (by norm_num)
    (by norm_num) (by norm_num)
  exact h

/-- Counterexample to claim C2 as stated: a freshly inserted entry with
extraction confidence 0.5 is stored with confidence 0.5 but strength 1.0,
so its stored strength exceeds its confidence. -/
theorem insertNewEntry_strength_exceeds_confidence :
    (insertNewEntry ⟨.fact, "port is 8080", ["ports"], 0.5⟩).strength = 1 ∧
    (insertNewEntry ⟨.fact, "port is 8080", ["ports"], 0.5⟩).confidence = 0.5 ∧
    (insertNewEntry ⟨.fact, "port is 8080", ["ports"], 0.5⟩).confidence <
      (insertNewEntry ⟨.fact, "port is 8080", ["ports"], 0.5⟩).strength := by
  unfold insertNewEntry
  norm_num

/-- Claim C2, amended: decay recomputation keeps strength at or below the
confidence ceiling (for nonnegative confidence and nonnegative elapsed days,
as guaranteed by the schema CHECK constraint and by real timestamps), but a
freshly inserted entry has its strength set to 1.0 regardless of confidence,
exceeding the confidence whenever it is below 1. -/
theorem strength_confidence_ceiling
    (t : KnowledgeType) (c : ℝ) (o a : ℕ) (d : ℝ) (e : ExtractedKnowledge)
    (hc : 0 ≤ c) (hd : 0 ≤ d) :
    computeStrength t c o a d ≤ c ∧ (insertNewEntry e).strength = 1 := by
  constructor
  · unfold computeStrength
    have hpos := decayFactor_pos t o a d
    have hle := decayFactor_le_one t o a hd
    have h1 : c * decayFactor t o a d ≤ c := by nlinarith
    have h2 : min 1 (c * decayFactor t o a d) ≤ c * decayFactor t o a d :=
      min_le_right _ _
    exact max_le (by linarith [hpos, hle]; ) (le_trans h2 h1)
  · unfold insertNewEntry
    norm_num

/-- Witness for the amended C2 theorem at a concrete fact entry. -/
theorem strength_confidence_ceiling_witness :
    computeStrength .fact 0.8 1 0 30 ≤ 0.8 ∧
    (insertNewEntry ⟨.fact, "w", [], 0.8⟩).strength = 1 := by
  exact strength_confidence_ceiling .fact 0.8 1 0 30 ⟨.fact, "w", [], 0.8⟩
    (by norm_num) (by norm_num)

/-- Cursor advancement at the end of `ConsolidationEngine.consolidate`
(`src/consolidation/consolidate.ts`, steps 9 onward). Inputs: the previous
cursor `state.lastMessageTimeCreated`, the `maxMessageTime` of every processed
episode, the `maxMessageTime` of the last candidate session, the number of
candidate sessions, and `config.consolidation.maxSessionsPerRun`. The code:
take the max episode message time (reduce with initial 0); start from
`max` of that and the previous cursor; if the batch is exactly full, cap at
`lastSession.maxMessageTime - 1` but only when that cap is strictly above the
previous cursor; otherwise advance past the last candidate; finally never
move backwards. -/
def computeNewCursor (cursor0 : ℤ) (episodeMaxTimes : List ℤ)
    (lastSessionMax : ℤ) (numCandidates maxSessionsPerRun : ℕ) : ℤ :=
  let maxEpisodeMessageTime := episodeMaxTimes.foldl max 0
  let c1 := max maxEpisodeMessageTime cursor0
  let hitBatchLimit := numCandidates = maxSessionsPerRun
  let c2 :=
    if hitBatchLimit then
      if lastSessionMax - 1 > cursor0 then min c1 (lastSessionMax - 1) else c1
    else max c1 lastSessionMax
  max c2 cursor0

/-- Counterexample to claim C3 as stated: with previous cursor 10, a full
batch (1 candidate with `maxSessionsPerRun = 1`) whose last candidate session
has max message time 11, and one processed episode with max message time 11,
the stored cursor is 11 — equal to, not strictly less than, the last candidate
session boundary timestamp. The cap `lastSessionMax - 1 = 10` is not strictly
above the previous cursor, so the code skips it to guarantee progress. -/
theorem computeNewCursor_boundary_counterexample :
    computeNewCursor 10 [11] 11 1 1 = 11 ∧
    ¬ computeNewCursor 10 [11] 11 1 1 < 11 := by
  constructor <;> decide

/-- Claim C3, amended: the cursor never moves backwards (unconditionally);
and when the candidate batch is exactly full and the boundary cap
`lastSessionMax - 1` lies strictly above the previous cursor, the stored
cursor stays strictly below the last candidate session max message
timestamp. (When the cap is at or below the previous cursor the code
deliberately skips it — otherwise the run could make no progress — and the
stored cursor can reach the boundary timestamp exactly.) -/
theorem computeNewCursor_monotone_and_boundary :
    (∀ (cursor0 : ℤ) (episodeMaxTimes : List ℤ) (lastSessionMax : ℤ)
        (numCandidates maxSessionsPerRun : ℕ),
      cursor0 ≤ computeNewCursor cursor0 episodeMaxTimes lastSessionMax
        numCandidates maxSessionsPerRun) ∧
    (∀ (cursor0 : ℤ) (episodeMaxTimes : List ℤ) (lastSessionMax : ℤ)
        (numCandidates maxSessionsPerRun : ℕ),
      numCandidates = maxSessionsPerRun → cursor0 < lastSessionMax - 1 →
      computeNewCursor cursor0 episodeMaxTimes lastSessionMax
        numCandidates maxSessionsPerRun < lastSessionMax) := by
  constructor
  · intro cursor0 episodeMaxTimes lastSessionMax numCandidates maxSessionsPerRun
    unfold computeNewCursor
    exact le_max_right _ _
  · intro cursor0 episodeMaxTimes lastSessionMax numCandidates maxSessionsPerRun
      hfull hcap
    unfold computeNewCursor
    simp only [hfull, if_pos, if_true]
    rw [if_pos (by omega : lastSessionMax - 1 > cursor0)]
    have h1 : min (max (episodeMaxTimes.foldl max 0) cursor0) (lastSessionMax - 1) ≤
        lastSessionMax - 1 := min_le_right _ _
    omega

/-- Witness for the amended C3 theorem: previous cursor 0, full batch of one
candidate with boundary timestamp 5, one episode at time 5 — the new cursor is
at least 0 and strictly below 5. -/
theorem computeNewCursor_monotone_and_boundary_witness :
    (0 : ℤ) ≤ computeNewCursor 0 [5] 5 1 1 ∧ computeNewCursor 0 [5] 5 1 1 < 5 :=
  ⟨computeNewCursor_monotone_and_boundary.1 0 [5] 5 1 1,
   computeNewCursor_monotone_and_boundary.2 0 [5] 5 1 1 rfl (by decide)⟩

/-- Cosine similarity from `src/activation/embeddings.ts`: dot product over
the squared norms, with a zero-denominator guard returning 0. The TypeScript
function throws on a dimension mismatch; here the vectors are zipped, which
agrees with the source on equal-length inputs. -/
noncomputable def cosineSimilarity (a b : List ℝ) : ℝ :=
  let dotProduct := (List.zipWith (fun x y => x * y) a b).sum
  let normA := (a.map fun x => x * x).sum
  let normB := (b.map fun x => x * x).sum
  let denominator := Real.sqrt normA * Real.sqrt normB
  if denominator = 0 then 0 else dotProduct / denominator

/-- A live cache entry as seen by `ConsolidationEngine.reconsolidate`
(an active or conflicted entry that has an embedding). -/
structure CacheEntry where
  id : String
  content : String
  embedding : List ℝ

/-- The reconsolidation threshold `RECONSOLIDATION_THRESHOLD = 0.82` from
`src/consolidation/consolidate.ts`. -/
def RECONSOLIDATION_THRESHOLD : ℝ := 0.82

/-- The nearest-neighbour scan in `ConsolidationEngine.reconsolidate`:
starting from `nearestEntry = null`, `nearestSimilarity = 0`, each cache
entry with `sim > nearestSimilarity` replaces the pair. -/
noncomputable def nearestScan (q : List ℝ) (cache : List CacheEntry) :
    Option CacheEntry × ℝ :=
  cache.foldl
    (fun acc existing =>
      let sim := cosineSimilarity q existing.embedding
      if acc.2 < sim then (some existing, sim) else acc)
    (none, 0)

/-- Outcome of the branch in `ConsolidationEngine.reconsolidate`: either the
candidate is inserted directly as a new entry, or the reconciliation
collaborator (`decideMerge`) is invoked with the nearest entry. -/
inductive ReconsolidateStep where
  | insertDirect (inserted : InsertedEntry)
  | askMergeLLM (nearest : CacheEntry)

/-- The decision branch of `ConsolidationEngine.reconsolidate`
(`src/consolidation/consolidate.ts`): insert directly when there is no
nearest entry or the similarity is below `RECONSOLIDATION_THRESHOLD`,
otherwise invoke the merge decision. `q` is the embedding of the candidate
content (produced by the embedding collaborator). -/
noncomputable def reconsolidateStep (entry : ExtractedKnowledge) (q : List ℝ)
    (cache : List CacheEntry) : ReconsolidateStep :=
  match (nearestScan q cache).1 with
  | none => .insertDirect (insertNewEntry entry)
  | some nearest =>
      if (nearestScan q cache).2 < RECONSOLIDATION_THRESHOLD then
        .insertDirect (insertNewEntry entry)
      else
        .askMergeLLM nearest

-- Facts about the nearest-neighbour fold.

theorem nearestScan_fold_snd_ge {q : List ℝ} (cache : List CacheEntry)
    (acc : Option CacheEntry × ℝ) :
    acc.2 ≤ (cache.foldl
      (fun acc existing =>
        let sim := cosineSimilarity q existing.embedding
        if acc.2 < sim then (some existing, sim) else acc) acc).2 := by
  induction cache generalizing acc with
  | nil => exact le_refl _
  | cons hd tl ih =>
    simp only [List.foldl_cons]
    refine le_trans ?_ (ih _)
    by_cases h : acc.2 < cosineSimilarity q hd.embedding
    · simp only [h, if_pos]
      exact le_of_lt h
    · simp only [h, if_neg, not_false_iff]
      exact le_refl _

theorem nearestScan_snd_ge_mem {q : List ℝ} {cache : List CacheEntry}
    {c : CacheEntry} (hc : c ∈ cache) (acc : Option CacheEntry × ℝ) :
    cosineSimilarity q c.embedding ≤ (cache.foldl
      (fun acc existing =>
        let sim := cosineSimilarity q existing.embedding
        if acc.2 < sim then (some existing, sim) else acc) acc).2 := by
  induction cache generalizing acc with
  | nil => cases hc
  | cons hd tl ih =>
    simp only [List.foldl_cons]
    rcases List.mem_cons.mp hc with rfl | htl
    · refine le_trans ?_ (nearestScan_fold_snd_ge tl _)
      by_cases h : acc.2 < cosineSimilarity q c.embedding
      · simp only [h, if_pos]
        exact le_refl _
      · simp only [h, if_neg, not_false_iff]
        exact le_of_not_lt h
    · exact ih htl _

theorem nearestScan_snd_lt {q : List ℝ} {cache : List CacheEntry} {x : ℝ}
    (acc : Option CacheEntry × ℝ) (hacc : acc.2 < x)
    (hall : ∀ c ∈ cache, cosineSimilarity q c.embedding < x) :
    (cache.foldl
      (fun acc existing =>
        let sim := cosineSimilarity q existing.embedding
        if acc.2 < sim then (some existing, sim) else acc) acc).2 < x := by
  induction cache generalizing acc with
  | nil => exact hacc
  | cons hd tl ih =>
    simp only [List.foldl_cons]
    refine ih _ ?_ (fun c hc => hall c (List.mem_cons_of_mem hd hc))
    by_cases h : acc.2 < cosineSimilarity q hd.embedding
    · simp only [h, if_pos]
      exact hall hd (List.mem_cons_self hd tl)
    · simp only [h, if_neg, not_false_iff]
      exact hacc

theorem nearestScan_none_snd {q : List ℝ} {cache : List CacheEntry}
    (acc : Option CacheEntry × ℝ) :
    (cache.foldl
      (fun acc existing =>
        let sim := cosineSimilarity q existing.embedding
        if acc.2 < sim then (some existing, sim) else acc) acc).1 = none →
    (cache.foldl
      (fun acc existing =>
        let sim := cosineSimilarity q existing.embedding
        if acc.2 < sim then (some existing, sim) else acc) acc).2 = acc.2 ∧
      acc.1 = none := by
  induction cache generalizing acc with
  | nil => exact fun h => ⟨rfl, h⟩
  | cons hd tl ih =>
    intro h
    simp only [List.foldl_cons] at h ⊢
    by_cases hlt : acc.2 < cosineSimilarity q hd.embedding
    · simp only [hlt, if_pos] at h ⊢
      obtain ⟨-, habs⟩ := ih _ h
      exact absurd habs (by simp)
    · simp only [hlt, if_neg, not_false_iff] at h ⊢
      exact ih _ h

/-- Claim C6: if some live cache entry has cosine similarity at least
`RECONSOLIDATION_THRESHOLD = 0.82` to the candidate embedding, the
reconciliation collaborator is invoked and the candidate is not inserted
directly; if every cache entry is below the threshold (in particular when
the cache is empty), the candidate is inserted directly as a new entry with
observation count 1 and without invoking the collaborator. -/
theorem reconsolidation_threshold_routing
    (entry : ExtractedKnowledge) (q : List ℝ) (cache : List CacheEntry) :
    ((∃ c ∈ cache, RECONSOLIDATION_THRESHOLD ≤ cosineSimilarity q c.embedding) →
      ∃ nearest, reconsolidateStep entry q cache = .askMergeLLM nearest) ∧
    ((∀ c ∈ cache, cosineSimilarity q c.embedding < RECONSOLIDATION_THRESHOLD) →
      reconsolidateStep entry q cache = .insertDirect (insertNewEntry entry) ∧
        (insertNewEntry entry).observationCount = 1) := by
  constructor
  · rintro ⟨c, hc, hsim⟩
    have hge : RECONSOLIDATION_THRESHOLD ≤ (nearestScan q cache).2 :=
      le_trans hsim (nearestScan_snd_ge_mem hc _)
    have hpos : (0 : ℝ) < (nearestScan q cache).2 := by
      have : (0 : ℝ) < RECONSOLIDATION_THRESHOLD := by norm_num [RECONSOLIDATION_THRESHOLD]
      linarith
    cases hfst : (nearestScan q cache).1 with
    | none =>
      obtain ⟨hsnd, -⟩ := nearestScan_none_snd ((none : Option CacheEntry), (0 : ℝ)) hfst
      rw [show (nearestScan q cache).2 = ((none : Option CacheEntry), (0:ℝ)).2 from hsnd]
        at hpos
      norm_num at hpos
    | some nearest =>
      refine ⟨nearest, ?_⟩
      unfold reconsolidateStep
      rw [hfst]
      simp only [if_neg (not_lt.mpr hge)]
  · intro hall
    have hlt : (nearestScan q cache).2 < RECONSOLIDATION_THRESHOLD := by
      unfold nearestScan
      exact nearestScan_snd_lt (none, 0) (by norm_num [RECONSOLIDATION_THRESHOLD]) hall
    refine ⟨?_, rfl⟩
    unfold reconsolidateStep
    cases hfst : (nearestScan q cache).1 with
    | none => rfl
    | some nearest => simp only [if_pos hlt]

theorem cosineSimilarity_unit_self : cosineSimilarity [1, 0] [1, 0] = 1 := by
  unfold cosineSimilarity
  simp only [List.zipWith, List.map, List.sum_cons, List.sum_nil]
  norm_num

/-- Witness for the C6 theorem: a one-entry cache at similarity 1 routes to
the merge collaborator, and an empty cache inserts directly. -/
theorem reconsolidation_threshold_routing_witness :
    (∃ nearest, reconsolidateStep ⟨.fact, "w", [], 0.9⟩ [1, 0]
        [⟨"e1", "c1", [1, 0]⟩] = .askMergeLLM nearest) ∧
    (reconsolidateStep ⟨.fact, "w", [], 0.9⟩ [1, 0] [] =
        .insertDirect (insertNewEntry ⟨.fact, "w", [], 0.9⟩) ∧
      (insertNewEntry ⟨.fact, "w", [], 0.9⟩).observationCount = 1) := by
  constructor
  · exact (reconsolidation_threshold_routing ⟨.fact, "w", [], 0.9⟩ [1, 0]
      [⟨"e1", "c1", [1, 0]⟩]).1
      ⟨⟨"e1", "c1", [1, 0]⟩, List.mem_singleton.mpr rfl, by
        rw [cosineSimilarity_unit_self]
        norm_num [RECONSOLIDATION_THRESHOLD]⟩
  · exact (reconsolidation_threshold_routing ⟨.fact, "w", [], 0.9⟩ [1, 0] []).2
      (fun c hc => absurd hc (List.not_mem_nil c))

/-- A parsed JSON value for the merge decision, as the loosely-typed object
`ConsolidationLLM.decideMerge` casts its `JSON.parse` result to: an `action`
string plus possibly-absent payload fields. A JSON value with no `action`
field is modelled by an `action` string that is not one of the four valid
actions (in JavaScript the field reads as `undefined`, which fails the
`includes` check the same way). -/
structure MergeParsed where
  action : String
  content : Option String
  ktype : Option String
  topics : Option (List String)
  confidence : Option ℚ
deriving DecidableEq

/-- The valid action strings checked by `decideMerge`:
`["keep", "update", "replace", "insert"]`. -/
def validMergeActions : List String := ["keep", "update", "replace", "insert"]

/-- The `parseJSON` helper of `src/consolidation/llm.ts` (object mode): try a
direct parse of the trimmed response, then the code-fence extract, then the
greedy bracket match, returning the first success or `none`. The JSON parser
itself and the two regex extractions are abstract inputs: `jparse s = none`
models `JSON.parse` throwing on `s`, and a `none` extract models a failed
regex match. -/
def parseJSONObject (jparse : String → Option MergeParsed)
    (direct : String) (fenceExtract bracketExtract : Option String) :
    Option MergeParsed :=
  match jparse direct with
  | some v => some v
  | none =>
      match fenceExtract.bind jparse with
      | some v => some v
      | none => bracketExtract.bind jparse

/-- The default decision object `{action: "insert"}` returned by
`decideMerge` on any malformed response. -/
def insertDefault : MergeParsed := ⟨"insert", none, none, none, none⟩

/-- Response handling of `ConsolidationLLM.decideMerge` in
`src/consolidation/llm.ts`: parse the response; if parsing fails or the
parsed action is not one of the four valid actions, return the safe default
`{action: "insert"}`; otherwise return the parsed decision unchanged. -/
def decideMergeResult (jparse : String → Option MergeParsed)
    (direct : String) (fenceExtract bracketExtract : Option String) :
    MergeParsed :=
  match parseJSONObject jparse direct fenceExtract bracketExtract with
  | none => insertDefault
  | some parsed =>
      if validMergeActions.contains parsed.action then parsed else insertDefault

/-- Claim C7: whenever the collaborator response contains no parseable JSON
object (every parse strategy fails) or parses to an object whose action is
outside {keep, update, replace, insert}, `decideMerge` returns the safe
default insert decision — the candidate is never dropped and no error is
propagated. -/
theorem decideMerge_malformed_defaults_to_insert
    (jparse : String → Option MergeParsed) (direct : String)
    (fenceExtract bracketExtract : Option String)
    (hbad : parseJSONObject jparse direct fenceExtract bracketExtract = none ∨
      ∃ parsed, parseJSONObject jparse direct fenceExtract bracketExtract =
          some parsed ∧ ¬ validMergeActions.contains parsed.action) :
    decideMergeResult jparse direct fenceExtract bracketExtract =
      insertDefault ∧
    (decideMergeResult jparse direct fenceExtract bracketExtract).action =
      "insert" := by
  have hmain : decideMergeResult jparse direct fenceExtract bracketExtract =
      insertDefault := by
    unfold decideMergeResult
    rcases hbad with hnone | ⟨parsed, hsome, hact⟩
    · rw [hnone]
    · rw [hsome]
      simp only [if_neg hact]
  exact ⟨hmain, by rw [hmain]; rfl⟩

/-- Witness for the C7 theorem: a response on which every parse strategy
fails (the parser rejects every candidate string). -/
theorem decideMerge_malformed_defaults_to_insert_witness :
    decideMergeResult (fun _ => none) "no json here" none none =
      insertDefault ∧
    (decideMergeResult (fun _ => none) "no json here" none none).action =
      "insert" :=
  decideMerge_malformed_defaults_to_insert (fun _ => none) "no json here"
    none none (Or.inl rfl)

/-- An active-or-conflicted entry with an embedding, as returned by
`getActiveEntriesWithEmbeddings` and consumed by `ActivationEngine.activate`
(fields not used by scoring, filtering or ranking are omitted). -/
structure ActivationEntry where
  id : String
  content : String
  strength : ℝ
  embedding : List ℝ

/-- The activation similarity threshold
`config.activation.similarityThreshold` (default 0.4) from `src/config.ts`. -/
def similarityThreshold : ℝ := 0.4

/-- The activation result cap `config.activation.maxResults` (default 10). -/
def activationMaxResults : ℕ := 10

/-- One scored element of the activation pipeline: the entry, its raw cosine
similarity to the query, and the ranking score
`similarity = rawSimilarity * entry.strength` computed by
`ActivationEngine.activate`. -/
structure ScoredEntry where
  entry : ActivationEntry
  rawSimilarity : ℝ
  similarity : ℝ

/-- The scoring map of `ActivationEngine.activate`
(`src/activation/activate.ts`): raw cosine similarity modulated by the
cached strength. -/
noncomputable def scoreEntries (queryEmbedding : List ℝ)
    (entries : List ActivationEntry) : List ScoredEntry :=
  entries.map fun e =>
    let rawSimilarity := cosineSimilarity queryEmbedding e.embedding
    ⟨e, rawSimilarity, rawSimilarity * e.strength⟩

/-- The threshold filter of `ActivationEngine.activate`:
`.filter((s) => s.similarity >= config.activation.similarityThreshold)` —
note it reads `s.similarity`, the strength-weighted score. -/
noncomputable def thresholdFilter (scored : List ScoredEntry) :
    List ScoredEntry :=
  scored.filter fun s => decide (similarityThreshold ≤ s.similarity)

/-- Insertion step for the descending sort by ranking score, modelling
`.sort((a, b) => b.similarity - a.similarity)`. -/
noncomputable def insertByScoreDesc (x : ScoredEntry) :
    List ScoredEntry → List ScoredEntry
  | [] => [x]
  | y :: ys =>
      if y.similarity < x.similarity then x :: y :: ys
      else y :: insertByScoreDesc x ys

/-- Descending sort by ranking score. -/
noncomputable def sortByScoreDesc : List ScoredEntry → List ScoredEntry
  | [] => []
  | x :: xs => insertByScoreDesc x (sortByScoreDesc xs)

/-- The ranked activation list before the top-N cut: score, filter on the
weighted score, sort descending. -/
noncomputable def activationRanked (queryEmbedding : List ℝ)
    (entries : List ActivationEntry) : List ScoredEntry :=
  sortByScoreDesc (thresholdFilter (scoreEntries queryEmbedding entries))

/-- The final activation result list,
`.slice(0, config.activation.maxResults)`. -/
noncomputable def activationResults (queryEmbedding : List ℝ)
    (entries : List ActivationEntry) : List ScoredEntry :=
  (activationRanked queryEmbedding entries).take activationMaxResults

theorem mem_insertByScoreDesc {x a : ScoredEntry} {l : List ScoredEntry} :
    a ∈ insertByScoreDesc x l ↔ a = x ∨ a ∈ l := by
  induction l with
  | nil => simp [insertByScoreDesc]
  | cons y ys ih =>
    unfold insertByScoreDesc
    by_cases h : y.similarity < x.similarity
    · simp only [h, if_pos, List.mem_cons]
    · simp only [h, if_neg, not_false_iff, List.mem_cons, ih]
      tauto

theorem mem_sortByScoreDesc {a : ScoredEntry} {l : List ScoredEntry} :
    a ∈ sortByScoreDesc l ↔ a ∈ l := by
  induction l with
  | nil => simp [sortByScoreDesc]
  | cons x xs ih =>
    unfold sortByScoreDesc
    rw [mem_insertByScoreDesc, ih, List.mem_cons]

/-- Counterexample to claim C1 as stated: against query embedding `[1, 0]`, a
live entry with embedding `[1, 0]` has raw cosine similarity 1, far above the
0.4 activation threshold, yet with cached strength 0.1 its weighted score is
0.1 < 0.4 and the ranked result list is empty — the entry is filtered out
purely for its low strength, before any top-N cut. -/
theorem activation_raw_threshold_counterexample :
    similarityThreshold ≤ cosineSimilarity [1, 0] [1, 0] ∧
    activationRanked [1, 0] [⟨"stale", "c", 0.1, [1, 0]⟩] = [] := by
  constructor
  · rw [cosineSimilarity_unit_self]
    norm_num [similarityThreshold]
  · unfold activationRanked thresholdFilter scoreEntries
    simp only [List.map_cons, List.map_nil]
    rw [List.filter_cons, List.filter_nil]
    have hlt : ¬ (similarityThreshold ≤
        cosineSimilarity [1, 0] [(1 : ℝ), 0] * (0.1 : ℝ)) := by
      rw [cosineSimilarity_unit_self]
      norm_num [similarityThreshold]
    simp only [decide_eq_true_eq, hlt, if_neg, if_false]
    rfl

/-- Claim C1, amended: the activation threshold is applied to the
strength-weighted score `rawSimilarity * strength`, not to the raw cosine
similarity: an entry of the live list appears in the ranked result (before
the top-N cut) exactly when its weighted score reaches the threshold, so a
low-strength entry can be excluded even when its raw similarity is above the
threshold. -/
theorem activation_threshold_is_strength_weighted
    (queryEmbedding : List ℝ) (entries : List ActivationEntry)
    (e : ActivationEntry) (he : e ∈ entries) :
    ((∃ s ∈ activationRanked queryEmbedding entries, s.entry = e) ↔
      similarityThreshold ≤
        cosineSimilarity queryEmbedding e.embedding * e.strength) := by
  constructor
  · rintro ⟨s, hs, hentry⟩
    rw [activationRanked] at hs
    rw [mem_sortByScoreDesc] at hs
    rw [thresholdFilter, List.mem_filter] at hs
    obtain ⟨hmem, hdec⟩ := hs
    rw [scoreEntries, List.mem_map] at hmem
    obtain ⟨e', -, rfl⟩ := hmem
    simp only at hentry
    subst hentry
    simpa using hdec
  · intro hth
    refine ⟨⟨e, cosineSimilarity queryEmbedding e.embedding,
        cosineSimilarity queryEmbedding e.embedding * e.strength⟩, ?_, rfl⟩
    rw [activationRanked, mem_sortByScoreDesc, thresholdFilter, List.mem_filter]
    refine ⟨?_, by simpa using hth⟩
    rw [scoreEntries, List.mem_map]
    exact ⟨e, he, rfl⟩

/-- Witness for the amended C1 theorem: a full-strength entry identical to
the query embedding is and must be in the ranked list. -/
theorem activation_threshold_is_strength_weighted_witness :
    (⟨"fresh", "c", 1, [1, 0]⟩ : ActivationEntry) ∈
      [(⟨"fresh", "c", 1, [1, 0]⟩ : ActivationEntry)] ∧
    ((∃ s ∈ activationRanked [1, 0] [⟨"fresh", "c", 1, [1, 0]⟩],
        s.entry = ⟨"fresh", "c", 1, [1, 0]⟩) ↔
      similarityThreshold ≤
        cosineSimilarity [1, 0] [(1 : ℝ), 0] * (1 : ℝ)) :=
  ⟨List.mem_singleton.mpr rfl,
   activation_threshold_is_strength_weighted [1, 0] [⟨"fresh", "c", 1, [1, 0]⟩]
     ⟨"fresh", "c", 1, [1, 0]⟩ (List.mem_singleton.mpr rfl)⟩

/-- Lifecycle status of a knowledge entry, from `KnowledgeStatus` in
`src/types.ts`. -/
inductive EntryStatus where
  | active
  | archived
  | superseded
  | conflicted
  | tombstoned
deriving DecidableEq, Repr

/-- Relation kinds from the `knowledge_relation` table CHECK constraint in
`src/db/schema.ts`. -/
inductive RelType where
  | supports
  | contradicts
  | refines
  | depends_on
  | supersedes
deriving DecidableEq, Repr

/-- A row of the `knowledge_entry` table (fields touched by contradiction
resolution; decay bookkeeping is modelled separately). -/
structure EntryRow where
  status : EntryStatus
  supersededBy : Option String
  content : String
  ktype : String
  topics : List String
  confidence : ℚ
  embedding : Option (List ℚ)
  updatedAt : ℤ
deriving DecidableEq

/-- A row of the `knowledge_relation` table. The `id` primary key is a fresh
UUID on every insert, so `INSERT OR IGNORE` never ignores; the id itself is
irrelevant to the queries and omitted. -/
structure RelRow where
  sourceId : String
  targetId : String
  rtype : RelType
  createdAt : ℤ
deriving DecidableEq

/-- The knowledge store as seen by `KnowledgeDB`: the entry table as a map
from id to row, and the relation table as a list in insertion (rowid)
order. -/
structure DBState where
  entries : String → Option EntryRow
  relations : List RelRow

/-- Apply an update to a single entry row (a SQL `UPDATE ... WHERE id = ?`;
a no-op when the row does not exist). -/
def updateRowById (s : DBState) (id : String) (f : EntryRow → EntryRow) :
    DBState :=
  { s with entries := fun i => if i = id then (s.entries i).map f else s.entries i }

/-- Append a relation row (`INSERT INTO knowledge_relation ...`). -/
def insertRelationRow (s : DBState) (src tgt : String) (t : RelType)
    (now : ℤ) : DBState :=
  { s with relations := s.relations ++ [⟨src, tgt, t, now⟩] }

/-- The valid knowledge type strings, from `KNOWLEDGE_TYPES` in
`src/types.ts`. -/
def KNOWLEDGE_TYPES : List String :=
  ["fact", "principle", "pattern", "decision", "procedure"]

/-- The `clampKnowledgeType` helper in `src/db/database.ts`: out-of-vocabulary
type strings from the collaborator fall back to "fact". -/
def clampKnowledgeType (t : String) : String :=
  if KNOWLEDGE_TYPES.contains t then t else "fact"

/-- The `findConflictCounterpart` query in `src/db/database.ts`: when the
entry exists and is conflicted, the other end of the first `contradicts`
relation touching it; otherwise `none`. -/
def findConflictCounterpart (s : DBState) (entryId : String) : Option String :=
  match s.entries entryId with
  | none => none
  | some row =>
      if row.status = EntryStatus.conflicted then
        match s.relations.find? (fun r =>
            r.rtype == RelType.contradicts &&
              (r.sourceId == entryId || r.targetId == entryId)) with
        | none => none
        | some r => some (if r.sourceId = entryId then r.targetId else r.sourceId)
      else none

/-- Restore a winner to active when it was conflicted
(`UPDATE ... SET status = 'active' WHERE id = ? AND status = 'conflicted'`). -/
def setActiveIfConflicted (now : ℤ) : EntryRow → EntryRow :=
  fun e =>
    if e.status = EntryStatus.conflicted then
      { e with status := EntryStatus.active, updatedAt := now }
    else e

/-- The `restoreConflictCounterpart` helper in `src/db/database.ts`: set the
counterpart back to active if it is still conflicted, and delete the
`contradicts` relation between the resolved pair (both orientations,
scoped to the specific pair). -/
def restoreConflictCounterpart (s : DBState) (counterpartId resolvedId : String)
    (now : ℤ) : DBState :=
  let s1 := updateRowById s counterpartId (setActiveIfConflicted now)
  { s1 with relations := s1.relations.filter (fun r =>
      !(r.rtype == RelType.contradicts &&
        ((r.sourceId == resolvedId && r.targetId == counterpartId) ||
         (r.sourceId == counterpartId && r.targetId == resolvedId)))) }

/-- Merged fields of a contradiction `merge` resolution. -/
structure MergedData where
  content : String
  ktype : String
  topics : List String
  confidence : ℚ
deriving DecidableEq

/-- The four acted-upon contradiction resolutions (a `no_conflict` result is
filtered out before reaching the store layer). -/
inductive Resolution where
  | supersede_old
  | supersede_new
  | merge
  | irresolvable
deriving DecidableEq, Repr

/-- Mark an entry superseded by `winner`
(`UPDATE ... SET status = 'superseded', superseded_by = ?`). -/
def supersedeRow (winner : String) (now : ℤ) : EntryRow → EntryRow :=
  fun e => { e with
    status := EntryStatus.superseded
    supersededBy := some winner
    updatedAt := now }

/-- Shallow embedding of `KnowledgeDB.applyContradictionResolution` in
`src/db/database.ts`. Each branch follows the source order: snapshot both
conflict counterparts before any status change, apply the supersede/merge
updates, record the `supersedes` or `contradicts` relation, then restore
orphaned counterparts (and, for a decisive win, the winner itself). For
`merge` without `mergedData` the content update is skipped and the winner
restore branch is also skipped (`newConflictPartner && mergedData`). -/
def applyContradictionResolution (s : DBState) (resolution : Resolution)
    (newEntryId existingEntryId : String) (mergedData : Option MergedData)
    (now : ℤ) : DBState :=
  match resolution with
  | .supersede_old =>
      let loserPartner := findConflictCounterpart s existingEntryId
      let winnerPartner := findConflictCounterpart s newEntryId
      let s1 := updateRowById s existingEntryId (supersedeRow newEntryId now)
      let s2 := insertRelationRow s1 newEntryId existingEntryId .supersedes now
      let s3 := match loserPartner with
        | some c => restoreConflictCounterpart s2 c existingEntryId now
        | none => s2
      match winnerPartner with
      | some c =>
          let s4 := updateRowById s3 newEntryId (setActiveIfConflicted now)
          restoreConflictCounterpart s4 c newEntryId now
      | none => s3
  | .supersede_new =>
      let loserPartner := findConflictCounterpart s newEntryId
      let winnerPartner := findConflictCounterpart s existingEntryId
      let s1 := updateRowById s newEntryId (supersedeRow existingEntryId now)
      let s2 := insertRelationRow s1 existingEntryId newEntryId .supersedes now
      let s3 := match loserPartner with
        | some c => restoreConflictCounterpart s2 c newEntryId now
        | none => s2
      match winnerPartner with
      | some c =>
          let s4 := updateRowById s3 existingEntryId (setActiveIfConflicted now)
          restoreConflictCounterpart s4 c existingEntryId now
      | none => s3
  | .merge =>
      let existingPartner := findConflictCounterpart s existingEntryId
      let newPartner := findConflictCounterpart s newEntryId
      let s1 := match mergedData with
        | none => s
        | some md => updateRowById s newEntryId (fun e =>
            { e with
              content := md.content
              ktype := clampKnowledgeType md.ktype
              topics := md.topics
              confidence := md.confidence
              embedding := none
              updatedAt := now })
      let s2 := updateRowById s1 existingEntryId (supersedeRow newEntryId now)
      let s3 := insertRelationRow s2 newEntryId existingEntryId .supersedes now
      let s4 := match existingPartner with
        | some c => restoreConflictCounterpart s3 c existingEntryId now
        | none => s3
      match newPartner, mergedData with
      | some c, some _ =>
          let s5 := updateRowById s4 newEntryId (setActiveIfConflicted now)
          restoreConflictCounterpart s5 c newEntryId now
      | _, _ => s4
  | .irresolvable =>
      let s1 := insertRelationRow s newEntryId existingEntryId .contradicts now
      let s2 := updateRowById s1 newEntryId (fun e =>
        { e with status := EntryStatus.conflicted, updatedAt := now })
      updateRowById s2 existingEntryId (fun e =>
        { e with status := EntryStatus.conflicted, updatedAt := now })

-- Read-after-write lemmas for the store model.

theorem updateRowById_entries_same (s : DBState) (id : String)
    (f : EntryRow → EntryRow) :
    (updateRowById s id f).entries id = (s.entries id).map f := by
  simp [updateRowById]

theorem updateRowById_entries_other (s : DBState) {i id : String}
    (f : EntryRow → EntryRow) (h : i ≠ id) :
    (updateRowById s id f).entries i = s.entries i := by
  simp [updateRowById, h]

theorem updateRowById_relations (s : DBState) (id : String)
    (f : EntryRow → EntryRow) :
    (updateRowById s id f).relations = s.relations := rfl

theorem insertRelationRow_entries (s : DBState) (src tgt : String)
    (t : RelType) (now : ℤ) :
    (insertRelationRow s src tgt t now).entries = s.entries := rfl

theorem insertRelationRow_relations (s : DBState) (src tgt : String)
    (t : RelType) (now : ℤ) :
    (insertRelationRow s src tgt t now).relations =
      s.relations ++ [⟨src, tgt, t, now⟩] := rfl

theorem restoreConflictCounterpart_entries_same (s : DBState)
    (c r : String) (now : ℤ) :
    (restoreConflictCounterpart s c r now).entries c =
      (s.entries c).map (setActiveIfConflicted now) := by
  simp [restoreConflictCounterpart, updateRowById]

theorem restoreConflictCounterpart_entries_other (s : DBState)
    {i c : String} (r : String) (now : ℤ) (h : i ≠ c) :
    (restoreConflictCounterpart s c r now).entries i = s.entries i := by
  simp [restoreConflictCounterpart, updateRowById, h]

theorem restoreConflictCounterpart_relations (s : DBState)
    (c r : String) (now : ℤ) :
    (restoreConflictCounterpart s c r now).relations =
      s.relations.filter (fun rel =>
        !(rel.rtype == RelType.contradicts &&
          ((rel.sourceId == r && rel.targetId == c) ||
           (rel.sourceId == c && rel.targetId == r)))) := rfl

/-- Effect of an `irresolvable` resolution on the pair: both rows become
conflicted and a `contradicts` relation is appended. -/
theorem irresolvable_effects (s : DBState) (x y : String) (t1 : ℤ)
    (ex ey : EntryRow) (hxy : x ≠ y)
    (hex : s.entries x = some ex) (hey : s.entries y = some ey) :
    (applyContradictionResolution s .irresolvable x y none t1).entries x =
      some { ex with status := EntryStatus.conflicted, updatedAt := t1 } ∧
    (applyContradictionResolution s .irresolvable x y none t1).entries y =
      some { ey with status := EntryStatus.conflicted, updatedAt := t1 } ∧
    (applyContradictionResolution s .irresolvable x y none t1).relations =
      s.relations ++ [⟨x, y, RelType.contradicts, t1⟩] ∧
    (∀ z, z ≠ x → z ≠ y →
      (applyContradictionResolution s .irresolvable x y none t1).entries z =
        s.entries z) := by
  unfold applyContradictionResolution
  refine ⟨?_, ?_, ?_, ?_⟩
  · rw [updateRowById_entries_other _ _ hxy, updateRowById_entries_same,
      insertRelationRow_entries, hex]
    rfl
  · rw [updateRowById_entries_same, updateRowById_entries_other _ _ (Ne.symm hxy),
      insertRelationRow_entries, hey]
    rfl
  · rw [updateRowById_relations, updateRowById_relations, insertRelationRow_relations]
  · intro z hzx hzy
    rw [updateRowById_entries_other _ _ hzy, updateRowById_entries_other _ _ hzx,
      insertRelationRow_entries]

/-- After `irresolvable x y` on a state with no prior `contradicts` relation
touching the pair, each side finds the other as its conflict counterpart,
and entries outside the pair that are not conflicted find none. -/
theorem findCounterpart_after_irresolvable (s : DBState) (x y : String)
    (t1 : ℤ) (ex ey : EntryRow) (hxy : x ≠ y)
    (hex : s.entries x = some ex) (hey : s.entries y = some ey)
    (hclean : ∀ r ∈ s.relations, r.rtype = RelType.contradicts →
      r.sourceId ≠ x ∧ r.targetId ≠ x ∧ r.sourceId ≠ y ∧ r.targetId ≠ y) :
    findConflictCounterpart
      (applyContradictionResolution s .irresolvable x y none t1) x = some y ∧
    findConflictCounterpart
      (applyContradictionResolution s .irresolvable x y none t1) y = some x ∧
    (∀ z ez, z ≠ x → z ≠ y → s.entries z = some ez →
      ez.status ≠ EntryStatus.conflicted →
      findConflictCounterpart
        (applyContradictionResolution s .irresolvable x y none t1) z = none) := by
  obtain ⟨hs1x, hs1y, hs1rel, hs1other⟩ :=
    irresolvable_effects s x y t1 ex ey hxy hex hey
  have hnonex : s.relations.find? (fun r =>
      r.rtype == RelType.contradicts &&
        (r.sourceId == x || r.targetId == x)) = none := by
    rw [List.find?_eq_none]
    intro r hr
    simp only [Bool.and_eq_true, Bool.or_eq_true, beq_iff_eq, not_and, not_or]
    intro hrt
    obtain ⟨h1, h2, -, -⟩ := hclean r hr hrt
    exact ⟨h1, h2⟩
  have hnoney : s.relations.find? (fun r =>
      r.rtype == RelType.contradicts &&
        (r.sourceId == y || r.targetId == y)) = none := by
    rw [List.find?_eq_none]
    intro r hr
    simp only [Bool.and_eq_true, Bool.or_eq_true, beq_iff_eq, not_and, not_or]
    intro hrt
    obtain ⟨-, -, h3, h4⟩ := hclean r hr hrt
    exact ⟨h3, h4⟩
  refine ⟨?_, ?_, ?_⟩
  · unfold findConflictCounterpart
    rw [hs1x]
    simp only [if_pos rfl, hs1rel, List.find?_append, hnonex, Option.none_or]
    rw [List.find?_cons_of_pos _ (by simp)]
    simp
  · unfold findConflictCounterpart
    rw [hs1y]
    simp only [if_pos rfl, hs1rel, List.find?_append, hnoney, Option.none_or]
    rw [List.find?_cons_of_pos _ (by simp)]
    simp [hxy, Ne.symm hxy]
  · intro z ez hzx hzy hez hstatus
    unfold findConflictCounterpart
    rw [hs1other z hzx hzy, hez]
    simp [hstatus]

/-- A `supersede_old` resolution in which the losing entry `x` is half of a
conflicted pair with counterpart `y`, and the winner `n` is not conflicted:
`x` is marked superseded by `n`, a supersedes relation is recorded, `y` is
restored, and the `contradicts` relation between `x` and `y` is deleted. -/
theorem supersede_old_restores_counterpart (s : DBState) (n x y : String)
    (t2 : ℤ) (rx ry : EntryRow) (hxy : x ≠ y)
    (hccx : findConflictCounterpart s x = some y)
    (hccn : findConflictCounterpart s n = none)
    (hrx : s.entries x = some rx) (hry : s.entries y = some ry) :
    (applyContradictionResolution s .supersede_old n x none t2).entries x =
      some (supersedeRow n t2 rx) ∧
    (applyContradictionResolution s .supersede_old n x none t2).entries y =
      some (setActiveIfConflicted t2 ry) ∧
    (∀ r ∈ (applyContradictionResolution s .supersede_old n x none t2).relations,
      ¬(r.rtype = RelType.contradicts ∧
        ((r.sourceId = x ∧ r.targetId = y) ∨ (r.sourceId = y ∧ r.targetId = x)))) ∧
    (⟨n, x, RelType.supersedes, t2⟩ : RelRow) ∈
      (applyContradictionResolution s .supersede_old n x none t2).relations := by
  have hmain : applyContradictionResolution s .supersede_old n x none t2 =
      restoreConflictCounterpart
        (insertRelationRow (updateRowById s x (supersedeRow n t2)) n x
          RelType.supersedes t2) y x t2 := by
    unfold applyContradictionResolution
    rw [hccx, hccn]
  rw [hmain]
  refine ⟨?_, ?_, ?_, ?_⟩
  · rw [restoreConflictCounterpart_entries_other _ _ _ hxy,
      insertRelationRow_entries, updateRowById_entries_same, hrx]
    rfl
  · rw [restoreConflictCounterpart_entries_same, insertRelationRow_entries,
      updateRowById_entries_other _ _ (Ne.symm hxy), hry]
    rfl
  · intro r hr
    rw [restoreConflictCounterpart_relations, List.mem_filter] at hr
    obtain ⟨-, hpred⟩ := hr
    simp only [Bool.not_eq_true', Bool.and_eq_false_iff, Bool.or_eq_false_iff,
      beq_eq_false_iff_ne, ne_eq, Bool.and_eq_false_iff] at hpred
    rintro ⟨hrt, hpair⟩
    rcases hpred with hrt' | ⟨h1, h2⟩
    · exact hrt' hrt
    · rcases hpair with ⟨hs, ht⟩ | ⟨hs, ht⟩
      · rcases h1 with h | h <;> [exact h hs; exact h ht]
      · rcases h2 with h | h <;> [exact h hs; exact h ht]
  · rw [restoreConflictCounterpart_relations, List.mem_filter,
      insertRelationRow_relations, updateRowById_relations]
    refine ⟨List.mem_append_right _ (List.mem_singleton.mpr rfl), by simp⟩

/-- A `supersede_new` resolution in which the losing new entry `x` is half of
a conflicted pair with counterpart `y`, and the winning existing entry `n` is
not conflicted: symmetric to `supersede_old`. -/
theorem supersede_new_restores_counterpart (s : DBState) (n x y : String)
    (t2 : ℤ) (rx ry : EntryRow) (hxy : x ≠ y)
    (hccx : findConflictCounterpart s x = some y)
    (hccn : findConflictCounterpart s n = none)
    (hrx : s.entries x = some rx) (hry : s.entries y = some ry) :
    (applyContradictionResolution s .supersede_new x n none t2).entries x =
      some (supersedeRow n t2 rx) ∧
    (applyContradictionResolution s .supersede_new x n none t2).entries y =
      some (setActiveIfConflicted t2 ry) ∧
    (∀ r ∈ (applyContradictionResolution s .supersede_new x n none t2).relations,
      ¬(r.rtype = RelType.contradicts ∧
        ((r.sourceId = x ∧ r.targetId = y) ∨ (r.sourceId = y ∧ r.targetId = x)))) ∧
    (⟨n, x, RelType.supersedes, t2⟩ : RelRow) ∈
      (applyContradictionResolution s .supersede_new x n none t2).relations := by
  have hmain : applyContradictionResolution s .supersede_new x n none t2 =
      restoreConflictCounterpart
        (insertRelationRow (updateRowById s x (supersedeRow n t2)) n x
          RelType.supersedes t2) y x t2 := by
    unfold applyContradictionResolution
    rw [hccx, hccn]
  rw [hmain]
  refine ⟨?_, ?_, ?_, ?_⟩
  · rw [restoreConflictCounterpart_entries_other _ _ _ hxy,
      insertRelationRow_entries, updateRowById_entries_same, hrx]
    rfl
  · rw [restoreConflictCounterpart_entries_same, insertRelationRow_entries,
      updateRowById_entries_other _ _ (Ne.symm hxy), hry]
    rfl
  · intro r hr
    rw [restoreConflictCounterpart_relations, List.mem_filter] at hr
    obtain ⟨-, hpred⟩ := hr
    simp only [Bool.not_eq_true', Bool.and_eq_false_iff, Bool.or_eq_false_iff,
      beq_eq_false_iff_ne, ne_eq, Bool.and_eq_false_iff] at hpred
    rintro ⟨hrt, hpair⟩
    rcases hpred with hrt' | ⟨h1, h2⟩
    · exact hrt' hrt
    · rcases hpair with ⟨hs, ht⟩ | ⟨hs, ht⟩
      · rcases h1 with h | h <;> [exact h hs; exact h ht]
      · rcases h2 with h | h <;> [exact h hs; exact h ht]
  · rw [restoreConflictCounterpart_relations, List.mem_filter,
      insertRelationRow_relations, updateRowById_relations]
    refine ⟨List.mem_append_right _ (List.mem_singleton.mpr rfl), by simp⟩

/-- A `merge` resolution (with full merged data) in which the superseded
candidate `x` is half of a conflicted pair with counterpart `y`, and the
winning new entry `n` is not conflicted: `x` is superseded, `y` restored,
and the stale `contradicts` relation deleted. -/
theorem merge_restores_counterpart (s : DBState) (n x y : String)
    (t2 : ℤ) (md : MergedData) (rx ry : EntryRow) (hnx : n ≠ x) (hny : n ≠ y)
    (hxy : x ≠ y)
    (hccx : findConflictCounterpart s x = some y)
    (hccn : findConflictCounterpart s n = none)
    (hrx : s.entries x = some rx) (hry : s.entries y = some ry) :
    (applyContradictionResolution s .merge n x (some md) t2).entries x =
      some (supersedeRow n t2 rx) ∧
    (applyContradictionResolution s .merge n x (some md) t2).entries y =
      some (setActiveIfConflicted t2 ry) ∧
    (∀ r ∈ (applyContradictionResolution s .merge n x (some md) t2).relations,
      ¬(r.rtype = RelType.contradicts ∧
        ((r.sourceId = x ∧ r.targetId = y) ∨ (r.sourceId = y ∧ r.targetId = x)))) ∧
    (⟨n, x, RelType.supersedes, t2⟩ : RelRow) ∈
      (applyContradictionResolution s .merge n x (some md) t2).relations := by
  have hmain : applyContradictionResolution s .merge n x (some md) t2 =
      restoreConflictCounterpart
        (insertRelationRow
          (updateRowById
            (updateRowById s n (fun e =>
              { e with
                content := md.content
                ktype := clampKnowledgeType md.ktype
                topics := md.topics
                confidence := md.confidence
                embedding := none
                updatedAt := t2 }))
            x (supersedeRow n t2))
          n x RelType.supersedes t2) y x t2 := by
    unfold applyContradictionResolution
    rw [hccx, hccn]
  rw [hmain]
  refine ⟨?_, ?_, ?_, ?_⟩
  · rw [restoreConflictCounterpart_entries_other _ _ _ hxy,
      insertRelationRow_entries, updateRowById_entries_same,
      updateRowById_entries_other _ _ (Ne.symm hnx), hrx]
    rfl
  · rw [restoreConflictCounterpart_entries_same, insertRelationRow_entries,
      updateRowById_entries_other _ _ (Ne.symm hxy),
      updateRowById_entries_other _ _ (Ne.symm hny), hry]
    rfl
  · intro r hr
    rw [restoreConflictCounterpart_relations, List.mem_filter] at hr
    obtain ⟨-, hpred⟩ := hr
    simp only [Bool.not_eq_true', Bool.and_eq_false_iff, Bool.or_eq_false_iff,
      beq_eq_false_iff_ne, ne_eq, Bool.and_eq_false_iff] at hpred
    rintro ⟨hrt, hpair⟩
    rcases hpred with hrt' | ⟨h1, h2⟩
    · exact hrt' hrt
    · rcases hpair with ⟨hs, ht⟩ | ⟨hs, ht⟩
      · rcases h1 with h | h <;> [exact h hs; exact h ht]
      · rcases h2 with h | h <;> [exact h hs; exact h ht]
  · rw [restoreConflictCounterpart_relations, List.mem_filter,
      insertRelationRow_relations, updateRowById_relations, updateRowById_relations]
    refine ⟨List.mem_append_right _ (List.mem_singleton.mpr rfl), by simp⟩

/-- Core computation shared by the two supersede branches when the winner `x`
is half of a conflicted pair with counterpart `y` and the loser `n` is a
third entry: the composite state both branches produce (supersede the loser,
record the relation, set the winner active, restore the counterpart). -/
theorem winner_restore_core (s : DBState) (x y n : String) (t2 : ℤ)
    (rx ry rn : EntryRow) (hxy : x ≠ y) (hnx : n ≠ x) (hny : n ≠ y)
    (hrx : s.entries x = some rx) (hry : s.entries y = some ry)
    (hrn : s.entries n = some rn) :
    (restoreConflictCounterpart
      (updateRowById
        (insertRelationRow (updateRowById s n (supersedeRow x t2)) x n
          RelType.supersedes t2)
        x (setActiveIfConflicted t2)) y x t2).entries x =
      some (setActiveIfConflicted t2 rx) ∧
    (restoreConflictCounterpart
      (updateRowById
        (insertRelationRow (updateRowById s n (supersedeRow x t2)) x n
          RelType.supersedes t2)
        x (setActiveIfConflicted t2)) y x t2).entries y =
      some (setActiveIfConflicted t2 ry) ∧
    (restoreConflictCounterpart
      (updateRowById
        (insertRelationRow (updateRowById s n (supersedeRow x t2)) x n
          RelType.supersedes t2)
        x (setActiveIfConflicted t2)) y x t2).entries n =
      some (supersedeRow x t2 rn) ∧
    (∀ r ∈ (restoreConflictCounterpart
      (updateRowById
        (insertRelationRow (updateRowById s n (supersedeRow x t2)) x n
          RelType.supersedes t2)
        x (setActiveIfConflicted t2)) y x t2).relations,
      ¬(r.rtype = RelType.contradicts ∧
        ((r.sourceId = x ∧ r.targetId = y) ∨ (r.sourceId = y ∧ r.targetId = x)))) ∧
    (⟨x, n, RelType.supersedes, t2⟩ : RelRow) ∈
      (restoreConflictCounterpart
        (updateRowById
          (insertRelationRow (updateRowById s n (supersedeRow x t2)) x n
            RelType.supersedes t2)
          x (setActiveIfConflicted t2)) y x t2).relations := by
  refine ⟨?_, ?_, ?_, ?_, ?_⟩
  · rw [restoreConflictCounterpart_entries_other _ _ _ hxy,
      updateRowById_entries_same, insertRelationRow_entries,
      updateRowById_entries_other _ _ (Ne.symm hnx), hrx]
    rfl
  · rw [restoreConflictCounterpart_entries_same,
      updateRowById_entries_other _ _ (Ne.symm hxy), insertRelationRow_entries,
      updateRowById_entries_other _ _ (Ne.symm hny), hry]
    rfl
  · rw [restoreConflictCounterpart_entries_other _ _ _ hny,
      updateRowById_entries_other _ _ hnx, insertRelationRow_entries,
      updateRowById_entries_same, hrn]
    rfl
  · intro r hr
    rw [restoreConflictCounterpart_relations, List.mem_filter] at hr
    obtain ⟨-, hpred⟩ := hr
    simp only [Bool.not_eq_true', Bool.and_eq_false_iff, Bool.or_eq_false_iff,
      beq_eq_false_iff_ne, ne_eq, Bool.and_eq_false_iff] at hpred
    rintro ⟨hrt, hpair⟩
    rcases hpred with hrt' | ⟨h1, h2⟩
    · exact hrt' hrt
    · rcases hpair with ⟨hs, ht⟩ | ⟨hs, ht⟩
      · rcases h1 with h | h <;> [exact h hs; exact h ht]
      · rcases h2 with h | h <;> [exact h hs; exact h ht]
  · rw [restoreConflictCounterpart_relations, List.mem_filter,
      updateRowById_relations, insertRelationRow_relations,
      updateRowById_relations]
    refine ⟨List.mem_append_right _ (List.mem_singleton.mpr rfl), by simp⟩

/-- A `supersede_old` resolution won by `x`, half of a conflicted pair with
counterpart `y`, over a non-conflicted loser `n`: the winner branch sets the
winner back to active, restores the counterpart, and deletes the stale
`contradicts` relation, while the loser is superseded. -/
theorem supersede_old_restores_winner (s : DBState) (x y n : String)
    (t2 : ℤ) (rx ry rn : EntryRow) (hxy : x ≠ y) (hnx : n ≠ x) (hny : n ≠ y)
    (hccx : findConflictCounterpart s x = some y)
    (hccn : findConflictCounterpart s n = none)
    (hrx : s.entries x = some rx) (hry : s.entries y = some ry)
    (hrn : s.entries n = some rn) :
    (applyContradictionResolution s .supersede_old x n none t2).entries x =
      some (setActiveIfConflicted t2 rx) ∧
    (applyContradictionResolution s .supersede_old x n none t2).entries y =
      some (setActiveIfConflicted t2 ry) ∧
    (applyContradictionResolution s .supersede_old x n none t2).entries n =
      some (supersedeRow x t2 rn) ∧
    (∀ r ∈ (applyContradictionResolution s .supersede_old x n none t2).relations,
      ¬(r.rtype = RelType.contradicts ∧
        ((r.sourceId = x ∧ r.targetId = y) ∨ (r.sourceId = y ∧ r.targetId = x)))) := by
  have hmain : applyContradictionResolution s .supersede_old x n none t2 =
      restoreConflictCounterpart
        (updateRowById
          (insertRelationRow (updateRowById s n (supersedeRow x t2)) x n
            RelType.supersedes t2)
          x (setActiveIfConflicted t2)) y x t2 := by
    unfold applyContradictionResolution
    rw [hccn, hccx]
  obtain ⟨h1, h2, h3, h4, -⟩ :=
    winner_restore_core s x y n t2 rx ry rn hxy hnx hny hrx hry hrn
  rw [hmain]
  exact ⟨h1, h2, h3, h4⟩

/-- A `supersede_new` resolution won by the existing entry `x`, half of a
conflicted pair with counterpart `y`, over a non-conflicted new entry `n`:
symmetric to the `supersede_old` winner case. -/
theorem supersede_new_restores_winner (s : DBState) (x y n : String)
    (t2 : ℤ) (rx ry rn : EntryRow) (hxy : x ≠ y) (hnx : n ≠ x) (hny : n ≠ y)
    (hccx : findConflictCounterpart s x = some y)
    (hccn : findConflictCounterpart s n = none)
    (hrx : s.entries x = some rx) (hry : s.entries y = some ry)
    (hrn : s.entries n = some rn) :
    (applyContradictionResolution s .supersede_new n x none t2).entries x =
      some (setActiveIfConflicted t2 rx) ∧
    (applyContradictionResolution s .supersede_new n x none t2).entries y =
      some (setActiveIfConflicted t2 ry) ∧
    (applyContradictionResolution s .supersede_new n x none t2).entries n =
      some (supersedeRow x t2 rn) ∧
    (∀ r ∈ (applyContradictionResolution s .supersede_new n x none t2).relations,
      ¬(r.rtype = RelType.contradicts ∧
        ((r.sourceId = x ∧ r.targetId = y) ∨ (r.sourceId = y ∧ r.targetId = x)))) := by
  have hmain : applyContradictionResolution s .supersede_new n x none t2 =
      restoreConflictCounterpart
        (updateRowById
          (insertRelationRow (updateRowById s n (supersedeRow x t2)) x n
            RelType.supersedes t2)
          x (setActiveIfConflicted t2)) y x t2 := by
    unfold applyContradictionResolution
    rw [hccn, hccx]
  obtain ⟨h1, h2, h3, h4, -⟩ :=
    winner_restore_core s x y n t2 rx ry rn hxy hnx hny hrx hry hrn
  rw [hmain]
  exact ⟨h1, h2, h3, h4⟩

/-- A `merge` resolution with full merged data won by `x`, half of a
conflicted pair with counterpart `y`, over a non-conflicted candidate `n`:
the merged fields land on `x`, the winner branch sets `x` active, restores
`y`, and deletes the stale `contradicts` relation, while `n` is superseded. -/
theorem merge_restores_winner (s : DBState) (x y n : String)
    (t2 : ℤ) (md : MergedData) (rx ry rn : EntryRow)
    (hxy : x ≠ y) (hnx : n ≠ x) (hny : n ≠ y)
    (hccx : findConflictCounterpart s x = some y)
    (hccn : findConflictCounterpart s n = none)
    (hrx : s.entries x = some rx) (hry : s.entries y = some ry)
    (hrn : s.entries n = some rn) :
    (applyContradictionResolution s .merge x n (some md) t2).entries x =
      some (setActiveIfConflicted t2
        { rx with
          content := md.content
          ktype := clampKnowledgeType md.ktype
          topics := md.topics
          confidence := md.confidence
          embedding := none
          updatedAt := t2 }) ∧
    (applyContradictionResolution s .merge x n (some md) t2).entries y =
      some (setActiveIfConflicted t2 ry) ∧
    (applyContradictionResolution s .merge x n (some md) t2).entries n =
      some (supersedeRow x t2 rn) ∧
    (∀ r ∈ (applyContradictionResolution s .merge x n (some md) t2).relations,
      ¬(r.rtype = RelType.contradicts ∧
        ((r.sourceId = x ∧ r.targetId = y) ∨ (r.sourceId = y ∧ r.targetId = x)))) := by
  have hmain : applyContradictionResolution s .merge x n (some md) t2 =
      restoreConflictCounterpart
        (updateRowById
          (insertRelationRow
            (updateRowById
              (updateRowById s x (fun e =>
                { e with
                  content := md.content
                  ktype := clampKnowledgeType md.ktype
                  topics := md.topics
                  confidence := md.confidence
                  embedding := none
                  updatedAt := t2 }))
              n (supersedeRow x t2))
            x n RelType.supersedes t2)
          x (setActiveIfConflicted t2)) y x t2 := by
    unfold applyContradictionResolution
    rw [hccn, hccx]
  rw [hmain]
  refine ⟨?_, ?_, ?_, ?_⟩
  · rw [restoreConflictCounterpart_entries_other _ _ _ hxy,
      updateRowById_entries_same, insertRelationRow_entries,
      updateRowById_entries_other _ _ (Ne.symm hnx),
      updateRowById_entries_same, hrx]
    rfl
  · rw [restoreConflictCounterpart_entries_same,
      updateRowById_entries_other _ _ (Ne.symm hxy), insertRelationRow_entries,
      updateRowById_entries_other _ _ (Ne.symm hny),
      updateRowById_entries_other _ _ (Ne.symm hxy), hry]
    rfl
  · rw [restoreConflictCounterpart_entries_other _ _ _ hny,
      updateRowById_entries_other _ _ hnx, insertRelationRow_entries,
      updateRowById_entries_same,
      updateRowById_entries_other _ _ hnx, hrn]
    rfl
  · intro r hr
    rw [restoreConflictCounterpart_relations, List.mem_filter] at hr
    obtain ⟨-, hpred⟩ := hr
    simp only [Bool.not_eq_true', Bool.and_eq_false_iff, Bool.or_eq_false_iff,
      beq_eq_false_iff_ne, ne_eq, Bool.and_eq_false_iff] at hpred
    rintro ⟨hrt, hpair⟩
    rcases hpred with hrt' | ⟨h1, h2⟩
    · exact hrt' hrt
    · rcases hpair with ⟨hs, ht⟩ | ⟨hs, ht⟩
      · rcases h1 with h | h <;> [exact h hs; exact h ht]
      · rcases h2 with h | h <;> [exact h hs; exact h ht]

/-- Claim C8, amended: applying an `irresolvable` resolution to a pair `x`,
`y` marks both entries conflicted and inserts a `contradicts` relation
between them. A later `supersede_old`, `supersede_new`, or full-data `merge`
resolution in which the pair member `x` is superseded by a third entry `n`
restores `y` to active and deletes the `contradicts` relation of the pair,
while `x` carries the forward pointer to `n`; and one in which `x` decisively
wins over `n` (either supersede direction, or a `merge` in which `x` survives
with the full merged data present) restores both `x` and `y` to active,
supersedes `n` with the pointer to `x`, and deletes the relation — no entry
is left conflicted without a live counterpart. (A `merge` won by a pair
member with partial merged data instead leaves the winner conflicted and its
counterpart unrestored; see the counterexample.) The hypotheses say the three
entries are distinct rows of the store, `n` is not itself conflicted, and no
prior `contradicts` relation touches the pair. -/
theorem contradiction_pair_lifecycle (s : DBState) (x y n : String)
    (t1 t2 : ℤ) (md : MergedData) (ex ey en : EntryRow)
    (hxy : x ≠ y) (hnx : n ≠ x) (hny : n ≠ y)
    (hex : s.entries x = some ex) (hey : s.entries y = some ey)
    (hen : s.entries n = some en) (henc : en.status ≠ EntryStatus.conflicted)
    (hclean : ∀ r ∈ s.relations, r.rtype = RelType.contradicts →
      r.sourceId ≠ x ∧ r.targetId ≠ x ∧ r.sourceId ≠ y ∧ r.targetId ≠ y) :
    (∃ e, (applyContradictionResolution s .irresolvable x y none t1).entries x =
        some e ∧ e.status = EntryStatus.conflicted) ∧
    (∃ e, (applyContradictionResolution s .irresolvable x y none t1).entries y =
        some e ∧ e.status = EntryStatus.conflicted) ∧
    (∃ r ∈ (applyContradictionResolution s .irresolvable x y none t1).relations,
      r.rtype = RelType.contradicts ∧ r.sourceId = x ∧ r.targetId = y) ∧
    ((∃ e, (applyContradictionResolution
          (applyContradictionResolution s .irresolvable x y none t1)
          .supersede_old n x none t2).entries x = some e ∧
        e.status = EntryStatus.superseded ∧ e.supersededBy = some n) ∧
      (∃ e, (applyContradictionResolution
          (applyContradictionResolution s .irresolvable x y none t1)
          .supersede_old n x none t2).entries y = some e ∧
        e.status = EntryStatus.active) ∧
      (∀ r ∈ (applyContradictionResolution
          (applyContradictionResolution s .irresolvable x y none t1)
          .supersede_old n x none t2).relations,
        ¬(r.rtype = RelType.contradicts ∧
          ((r.sourceId = x ∧ r.targetId = y) ∨ (r.sourceId = y ∧ r.targetId = x))))) ∧
    ((∃ e, (applyContradictionResolution
          (applyContradictionResolution s .irresolvable x y none t1)
          .supersede_new x n none t2).entries x = some e ∧
        e.status = EntryStatus.superseded ∧ e.supersededBy = some n) ∧
      (∃ e, (applyContradictionResolution
          (applyContradictionResolution s .irresolvable x y none t1)
          .supersede_new x n none t2).entries y = some e ∧
        e.status = EntryStatus.active) ∧
      (∀ r ∈ (applyContradictionResolution
          (applyContradictionResolution s .irresolvable x y none t1)
          .supersede_new x n none t2).relations,
        ¬(r.rtype = RelType.contradicts ∧
          ((r.sourceId = x ∧ r.targetId = y) ∨ (r.sourceId = y ∧ r.targetId = x))))) ∧
    ((∃ e, (applyContradictionResolution
          (applyContradictionResolution s .irresolvable x y none t1)
          .merge n x (some md) t2).entries x = some e ∧
        e.status = EntryStatus.superseded ∧ e.supersededBy = some n) ∧
      (∃ e, (applyContradictionResolution
          (applyContradictionResolution s .irresolvable x y none t1)
          .merge n x (some md) t2).entries y = some e ∧
        e.status = EntryStatus.active) ∧
      (∀ r ∈ (applyContradictionResolution
          (applyContradictionResolution s .irresolvable x y none t1)
          .merge n x (some md) t2).relations,
        ¬(r.rtype = RelType.contradicts ∧
          ((r.sourceId = x ∧ r.targetId = y) ∨ (r.sourceId = y ∧ r.targetId = x))))) ∧
    ((∃ e, (applyContradictionResolution
          (applyContradictionResolution s .irresolvable x y none t1)
          .supersede_old x n none t2).entries x = some e ∧
        e.status = EntryStatus.active) ∧
      (∃ e, (applyContradictionResolution
          (applyContradictionResolution s .irresolvable x y none t1)
          .supersede_old x n none t2).entries y = some e ∧
        e.status = EntryStatus.active) ∧
      (∃ e, (applyContradictionResolution
          (applyContradictionResolution s .irresolvable x y none t1)
          .supersede_old x n none t2).entries n = some e ∧
        e.status = EntryStatus.superseded ∧ e.supersededBy = some x) ∧
      (∀ r ∈ (applyContradictionResolution
          (applyContradictionResolution s .irresolvable x y none t1)
          .supersede_old x n none t2).relations,
        ¬(r.rtype = RelType.contradicts ∧
          ((r.sourceId = x ∧ r.targetId = y) ∨ (r.sourceId = y ∧ r.targetId = x))))) ∧
    ((∃ e, (applyContradictionResolution
          (applyContradictionResolution s .irresolvable x y none t1)
          .supersede_new n x none t2).entries x = some e ∧
        e.status = EntryStatus.active) ∧
      (∃ e, (applyContradictionResolution
          (applyContradictionResolution s .irresolvable x y none t1)
          .supersede_new n x none t2).entries y = some e ∧
        e.status = EntryStatus.active) ∧
      (∃ e, (applyContradictionResolution
          (applyContradictionResolution s .irresolvable x y none t1)
          .supersede_new n x none t2).entries n = some e ∧
        e.status = EntryStatus.superseded ∧ e.supersededBy = some x) ∧
      (∀ r ∈ (applyContradictionResolution
          (applyContradictionResolution s .irresolvable x y none t1)
          .supersede_new n x none t2).relations,
        ¬(r.rtype = RelType.contradicts ∧
          ((r.sourceId = x ∧ r.targetId = y) ∨ (r.sourceId = y ∧ r.targetId = x))))) ∧
    ((∃ e, (applyContradictionResolution
          (applyContradictionResolution s .irresolvable x y none t1)
          .merge x n (some md) t2).entries x = some e ∧
        e.status = EntryStatus.active) ∧
      (∃ e, (applyContradictionResolution
          (applyContradictionResolution s .irresolvable x y none t1)
          .merge x n (some md) t2).entries y = some e ∧
        e.status = EntryStatus.active) ∧
      (∃ e, (applyContradictionResolution
          (applyContradictionResolution s .irresolvable x y none t1)
          .merge x n (some md) t2).entries n = some e ∧
        e.status = EntryStatus.superseded ∧ e.supersededBy = some x) ∧
      (∀ r ∈ (applyContradictionResolution
          (applyContradictionResolution s .irresolvable x y none t1)
          .merge x n (some md) t2).relations,
        ¬(r.rtype = RelType.contradicts ∧
          ((r.sourceId = x ∧ r.targetId = y) ∨ (r.sourceId = y ∧ r.targetId = x))))) := by
  obtain ⟨hs1x, hs1y, hs1rel, hs1other⟩ :=
    irresolvable_effects s x y t1 ex ey hxy hex hey
  obtain ⟨hccx, hccy, hccnone⟩ :=
    findCounterpart_after_irresolvable s x y t1 ex ey hxy hex hey hclean
  have hccn : findConflictCounterpart
      (applyContradictionResolution s .irresolvable x y none t1) n = none :=
    hccnone n en hnx hny hen henc
  have hs1n : (applyContradictionResolution s .irresolvable x y none t1).entries n =
      some en := by
    rw [hs1other n hnx hny]
    exact hen
  refine ⟨⟨_, hs1x, rfl⟩, ⟨_, hs1y, rfl⟩, ?_, ?_, ?_, ?_, ?_, ?_, ?_⟩
  · exact ⟨⟨x, y, RelType.contradicts, t1⟩,
      by rw [hs1rel]; exact List.mem_append_right _ (List.mem_singleton.mpr rfl),
      rfl, rfl, rfl⟩
  · obtain ⟨h1, h2, h3, -⟩ := supersede_old_restores_counterpart
      (applyContradictionResolution s .irresolvable x y none t1) n x y t2
      _ _ hxy hccx hccn hs1x hs1y
    exact ⟨⟨_, h1, rfl, rfl⟩, ⟨_, h2, by simp [setActiveIfConflicted]⟩, h3⟩
  · obtain ⟨h1, h2, h3, -⟩ := supersede_new_restores_counterpart
      (applyContradictionResolution s .irresolvable x y none t1) n x y t2
      _ _ hxy hccx hccn hs1x hs1y
    exact ⟨⟨_, h1, rfl, rfl⟩, ⟨_, h2, by simp [setActiveIfConflicted]⟩, h3⟩
  · obtain ⟨h1, h2, h3, -⟩ := merge_restores_counterpart
      (applyContradictionResolution s .irresolvable x y none t1) n x y t2
      md _ _ hnx hny hxy hccx hccn hs1x hs1y
    exact ⟨⟨_, h1, rfl, rfl⟩, ⟨_, h2, by simp [setActiveIfConflicted]⟩, h3⟩
  · obtain ⟨h1, h2, h3, h4⟩ := supersede_old_restores_winner
      (applyContradictionResolution s .irresolvable x y none t1) x y n t2
      _ _ _ hxy hnx hny hccx hccn hs1x hs1y hs1n
    exact ⟨⟨_, h1, by simp [setActiveIfConflicted]⟩,
      ⟨_, h2, by simp [setActiveIfConflicted]⟩, ⟨_, h3, rfl, rfl⟩, h4⟩
  · obtain ⟨h1, h2, h3, h4⟩ := supersede_new_restores_winner
      (applyContradictionResolution s .irresolvable x y none t1) x y n t2
      _ _ _ hxy hnx hny hccx hccn hs1x hs1y hs1n
    exact ⟨⟨_, h1, by simp [setActiveIfConflicted]⟩,
      ⟨_, h2, by simp [setActiveIfConflicted]⟩, ⟨_, h3, rfl, rfl⟩, h4⟩
  · obtain ⟨h1, h2, h3, h4⟩ := merge_restores_winner
      (applyContradictionResolution s .irresolvable x y none t1) x y n t2
      md _ _ _ hxy hnx hny hccx hccn hs1x hs1y hs1n
    exact ⟨⟨_, h1, by simp [setActiveIfConflicted]⟩,
      ⟨_, h2, by simp [setActiveIfConflicted]⟩, ⟨_, h3, rfl, rfl⟩, h4⟩

/-- A concrete three-entry store used to witness the contradiction pair
lifecycle. -/
def pairWitnessRow : EntryRow :=
  ⟨EntryStatus.active, none, "a", "fact", [], 1/2, none, 0⟩

/-- Concrete store with three active entries and no relations. -/
def pairWitnessDB : DBState :=
  { entries := fun i =>
      if i = "x" then some pairWitnessRow
      else if i = "y" then some pairWitnessRow
      else if i = "n" then some pairWitnessRow
      else none
    relations := [] }

/-- Witness for the C8 theorem: after `irresolvable` on the pair, a
`supersede_old` loss of `x` leaves the counterpart `y` active and `x`
superseded, while a `supersede_old` win of `x` over the third entry leaves
both pair members active. -/
theorem contradiction_pair_lifecycle_witness :
    (∃ e, (applyContradictionResolution
        (applyContradictionResolution pairWitnessDB .irresolvable "x" "y" none 1)
        .supersede_old "n" "x" none 2).entries "y" = some e ∧
      e.status = EntryStatus.active) ∧
    (∃ e, (applyContradictionResolution
        (applyContradictionResolution pairWitnessDB .irresolvable "x" "y" none 1)
        .supersede_old "n" "x" none 2).entries "x" = some e ∧
      e.status = EntryStatus.superseded ∧ e.supersededBy = some "n") ∧
    (∃ e, (applyContradictionResolution
        (applyContradictionResolution pairWitnessDB .irresolvable "x" "y" none 1)
        .supersede_old "x" "n" none 2).entries "x" = some e ∧
      e.status = EntryStatus.active) ∧
    (∃ e, (applyContradictionResolution
        (applyContradictionResolution pairWitnessDB .irresolvable "x" "y" none 1)
        .supersede_old "x" "n" none 2).entries "y" = some e ∧
      e.status = EntryStatus.active) := by
  have h := contradiction_pair_lifecycle pairWitnessDB "x" "y" "n" 1 2
    ⟨"m", "fact", [], 1⟩ pairWitnessRow pairWitnessRow pairWitnessRow
    (by decide) (by decide) (by decide) rfl rfl rfl (by decide)
    (by intro r hr; exact absurd hr (List.not_mem_nil r))
  exact ⟨h.2.2.2.1.2.1, h.2.2.2.1.1,
    h.2.2.2.2.2.2.1.1, h.2.2.2.2.2.2.1.2.1⟩

/-- The `mergedData` construction in
`ConsolidationEngine.runContradictionScan` (`src/consolidation/consolidate.ts`):
merged fields are packaged only when the resolution is `merge`, `mergedContent`
and `mergedType` are truthy (present and non-empty), `mergedTopics` is present
and `mergedConfidence !== undefined`; otherwise `undefined` is passed. -/
def contradictionMergedData (resolution : Resolution)
    (mergedContent mergedType : Option String)
    (mergedTopics : Option (List String)) (mergedConfidence : Option ℚ) :
    Option MergedData :=
  if resolution = Resolution.merge then
    match mergedContent, mergedType, mergedTopics, mergedConfidence with
    | some c, some t, some tp, some cf =>
        if c ≠ "" ∧ t ≠ "" then some ⟨c, t, tp, cf⟩ else none
    | _, _, _, _ => none
  else none

theorem setActiveIfConflicted_fields (now : ℤ) (e : EntryRow) :
    (setActiveIfConflicted now e).content = e.content ∧
    (setActiveIfConflicted now e).ktype = e.ktype ∧
    (setActiveIfConflicted now e).topics = e.topics ∧
    (setActiveIfConflicted now e).confidence = e.confidence ∧
    (setActiveIfConflicted now e).embedding = e.embedding ∧
    (setActiveIfConflicted now e).supersededBy = e.supersededBy ∧
    (e.status = EntryStatus.superseded →
      (setActiveIfConflicted now e).status = EntryStatus.superseded) := by
  unfold setActiveIfConflicted
  by_cases h : e.status = EntryStatus.conflicted
  · refine ⟨by simp [h], by simp [h], by simp [h], by simp [h], by simp [h],
      by simp [h], ?_⟩
    intro hs
    rw [hs] at h
    cases h
  · simp [h]

/-- The merge branch with absent merged data reduces to supersede plus
restores; helper equation used by the C10 theorem. -/
theorem applyContradictionResolution_merge_none (s : DBState)
    (newEntryId existingEntryId : String) (now : ℤ) :
    applyContradictionResolution s .merge newEntryId existingEntryId none now =
      (let s2 := updateRowById s existingEntryId (supersedeRow newEntryId now)
       let s3 := insertRelationRow s2 newEntryId existingEntryId
         RelType.supersedes now
       match findConflictCounterpart s existingEntryId with
       | some c => restoreConflictCounterpart s3 c existingEntryId now
       | none => s3) := by
  unfold applyContradictionResolution
  cases hep : findConflictCounterpart s existingEntryId <;>
    cases hnp : findConflictCounterpart s newEntryId <;> rfl

/-- Claim C10: the contradiction-scan merge packaging applies merged fields
only when all four of mergedContent, mergedType, mergedTopics and
mergedConfidence are present; and when any of the four is missing the merge
resolution leaves the new entry content, type, topics, confidence and
embedding unchanged, while the candidate is still marked superseded with the
forward pointer set and a supersedes relation recorded. -/
theorem contradiction_merge_partial_fields :
    (∀ (mc mt : Option String) (mtp : Option (List String)) (mcf : Option ℚ)
        (md : MergedData),
      contradictionMergedData .merge mc mt mtp mcf = some md →
      mc.isSome ∧ mt.isSome ∧ mtp.isSome ∧ mcf.isSome) ∧
    (∀ (s : DBState) (newId candId : String) (mc mt : Option String)
        (mtp : Option (List String)) (mcf : Option ℚ) (now : ℤ)
        (e ec : EntryRow),
      newId ≠ candId →
      s.entries newId = some e → s.entries candId = some ec →
      (mc = none ∨ mt = none ∨ mtp = none ∨ mcf = none) →
      contradictionMergedData .merge mc mt mtp mcf = none ∧
      (∃ e', (applyContradictionResolution s .merge newId candId
            (contradictionMergedData .merge mc mt mtp mcf) now).entries newId =
          some e' ∧
        e'.content = e.content ∧ e'.ktype = e.ktype ∧ e'.topics = e.topics ∧
        e'.confidence = e.confidence ∧ e'.embedding = e.embedding) ∧
      (∃ ec', (applyContradictionResolution s .merge newId candId
            (contradictionMergedData .merge mc mt mtp mcf) now).entries candId =
          some ec' ∧
        ec'.status = EntryStatus.superseded ∧ ec'.supersededBy = some newId) ∧
      (∃ r ∈ (applyContradictionResolution s .merge newId candId
            (contradictionMergedData .merge mc mt mtp mcf) now).relations,
        r.rtype = RelType.supersedes ∧ r.sourceId = newId ∧ r.targetId = candId)) := by
  constructor
  · intro mc mt mtp mcf md hmd
    unfold contradictionMergedData at hmd
    rw [if_pos rfl] at hmd
    match mc, mt, mtp, mcf with
    | some c, some t, some tp, some cf => exact ⟨rfl, rfl, rfl, rfl⟩
    | none, _, _, _ => cases hmd
    | some _, none, _, _ => cases hmd
    | some _, some _, none, _ => cases hmd
    | some _, some _, some _, none => cases hmd
  · intro s newId candId mc mt mtp mcf now e ec hne hse hsec hmissing
    have hnone : contradictionMergedData .merge mc mt mtp mcf = none := by
      unfold contradictionMergedData
      rw [if_pos rfl]
      rcases hmissing with h | h | h | h <;> subst h
      · rfl
      · match mc with
        | none => rfl
        | some _ => rfl
      · match mc, mt with
        | none, _ => rfl
        | some _, none => rfl
        | some _, some _ => rfl
      · match mc, mt, mtp with
        | none, _, _ => rfl
        | some _, none, _ => rfl
        | some _, some _, none => rfl
        | some _, some _, some _ => rfl
    refine ⟨hnone, ?_⟩
    rw [hnone, applyContradictionResolution_merge_none]
    have hs2new : (updateRowById s candId (supersedeRow newId now)).entries newId =
        some e := by
      rw [updateRowById_entries_other _ _ hne, hse]
    have hs2cand : (updateRowById s candId (supersedeRow newId now)).entries candId =
        some (supersedeRow newId now ec) := by
      rw [updateRowById_entries_same, hsec]
      rfl
    cases hep : findConflictCounterpart s candId with
    | none =>
      simp only
      refine ⟨⟨e, ?_, rfl, rfl, rfl, rfl, rfl⟩, ⟨supersedeRow newId now ec, ?_, rfl, rfl⟩, ?_⟩
      · rw [insertRelationRow_entries, hs2new]
      · rw [insertRelationRow_entries, hs2cand]
      · refine ⟨⟨newId, candId, RelType.supersedes, now⟩, ?_, rfl, rfl, rfl⟩
        rw [insertRelationRow_relations]
        exact List.mem_append_right _ (List.mem_singleton.mpr rfl)
    | some c =>
      simp only
      refine ⟨?_, ?_, ?_⟩
      · by_cases hc : newId = c
        · subst hc
          rw [restoreConflictCounterpart_entries_same, insertRelationRow_entries,
            hs2new]
          obtain ⟨f1, f2, f3, f4, f5, -, -⟩ := setActiveIfConflicted_fields now e
          exact ⟨setActiveIfConflicted now e, rfl, f1, f2, f3, f4, f5⟩
        · rw [restoreConflictCounterpart_entries_other _ _ _ hc,
            insertRelationRow_entries, hs2new]
          exact ⟨e, rfl, rfl, rfl, rfl, rfl, rfl⟩
      · by_cases hc : candId = c
        · subst hc
          rw [restoreConflictCounterpart_entries_same, insertRelationRow_entries,
            hs2cand]
          obtain ⟨-, -, -, -, -, f6, f7⟩ :=
            setActiveIfConflicted_fields now (supersedeRow newId now ec)
          exact ⟨setActiveIfConflicted now (supersedeRow newId now ec), rfl,
            f7 rfl, f6⟩
        · rw [restoreConflictCounterpart_entries_other _ _ _ hc,
            insertRelationRow_entries, hs2cand]
          exact ⟨supersedeRow newId now ec, rfl, rfl, rfl⟩
      · refine ⟨⟨newId, candId, RelType.supersedes, now⟩, ?_, rfl, rfl, rfl⟩
        rw [restoreConflictCounterpart_relations, List.mem_filter,
          insertRelationRow_relations, updateRowById_relations]
        exact ⟨List.mem_append_right _ (List.mem_singleton.mpr rfl), by simp⟩

/-- Witness for the C10 theorem: merged content present but merged type
missing — nothing is applied to the new entry, yet the candidate is
superseded. -/
theorem contradiction_merge_partial_fields_witness :
    contradictionMergedData .merge (some "merged") none (some []) (some 1) =
      none ∧
    (∃ e', (applyContradictionResolution pairWitnessDB .merge "x" "y"
          (contradictionMergedData .merge (some "merged") none (some []) (some 1))
          3).entries "x" = some e' ∧
      e'.content = pairWitnessRow.content ∧ e'.ktype = pairWitnessRow.ktype ∧
      e'.topics = pairWitnessRow.topics ∧
      e'.confidence = pairWitnessRow.confidence ∧
      e'.embedding = pairWitnessRow.embedding) ∧
    (∃ ec', (applyContradictionResolution pairWitnessDB .merge "x" "y"
          (contradictionMergedData .merge (some "merged") none (some []) (some 1))
          3).entries "y" = some ec' ∧
      ec'.status = EntryStatus.superseded ∧ ec'.supersededBy = some "x") ∧
    (∃ r ∈ (applyContradictionResolution pairWitnessDB .merge "x" "y"
          (contradictionMergedData .merge (some "merged") none (some []) (some 1))
          3).relations,
      r.rtype = RelType.supersedes ∧ r.sourceId = "x" ∧ r.targetId = "y") :=
  contradiction_merge_partial_fields.2 pairWitnessDB "x" "y" (some "merged")
    none (some []) (some 1) 3 pairWitnessRow pairWitnessRow (by decide)
    rfl rfl (Or.inr (Or.inl rfl))

/-- An episode as produced by segmentation, keyed by its stable
(startMessageId, endMessageId) pair (`Episode` in `src/types.ts`; fields not
used by the already-processed filter are omitted). -/
structure EpisodeSeg where
  sessionId : String
  startMessageId : String
  endMessageId : String
  contentType : String
deriving DecidableEq

/-- The range key used by `segmentSession` in
`src/consolidation/episodes.ts`: the template string
`startMessageId ++ "::" ++ endMessageId`. -/
def episodeRangeKey (startId endId : String) : String :=
  startId ++ "::" ++ endId

/-- The already-processed filter at the end of `segmentSession`: when the
per-session processed-range list is empty all episodes pass; otherwise an
episode is excluded when its range key is in the processed key set. -/
def filterProcessedEpisodes (episodes : List EpisodeSeg)
    (processedRanges : List (String × String)) : List EpisodeSeg :=
  if processedRanges = [] then episodes
  else
    let processedSet := processedRanges.map fun r => episodeRangeKey r.1 r.2
    episodes.filter fun ep =>
      !(processedSet.contains (episodeRangeKey ep.startMessageId ep.endMessageId))

/-- A row of the `consolidated_episode` table, primary-keyed on
(session_id, start_message_id, end_message_id). -/
structure EpisodeLogRow where
  sessionId : String
  startMessageId : String
  endMessageId : String
  contentType : String
  processedAt : ℤ
  entriesCreated : ℤ
deriving DecidableEq

/-- `KnowledgeDB.recordEpisode` in `src/db/database.ts`:
`INSERT OR IGNORE INTO consolidated_episode ...` — a row whose primary key
triple is already present leaves the table unchanged. -/
def recordEpisode (table : List EpisodeLogRow) (row : EpisodeLogRow) :
    List EpisodeLogRow :=
  if table.any (fun r =>
      r.sessionId == row.sessionId &&
      r.startMessageId == row.startMessageId &&
      r.endMessageId == row.endMessageId) then
    table
  else
    table ++ [row]

/-- Claim C9: segmentation excludes every episode whose exact
(startMessageId, endMessageId) pair is in the processed-range list, and
`recordEpisode` is idempotent on the primary-key triple — re-recording a row
with the same key (even with different payload) is a no-op. -/
theorem episode_resumability :
    (∀ (episodes : List EpisodeSeg) (processedRanges : List (String × String))
        (ep : EpisodeSeg),
      (ep.startMessageId, ep.endMessageId) ∈ processedRanges →
      ep ∉ filterProcessedEpisodes episodes processedRanges) ∧
    (∀ (table : List EpisodeLogRow) (row row' : EpisodeLogRow),
      row'.sessionId = row.sessionId →
      row'.startMessageId = row.startMessageId →
      row'.endMessageId = row.endMessageId →
      recordEpisode (recordEpisode table row) row' = recordEpisode table row) := by
  constructor
  · intro episodes processedRanges ep hproc hmem
    have hne : processedRanges ≠ [] := by
      intro h
      rw [h] at hproc
      exact absurd hproc (List.not_mem_nil _)
    rw [filterProcessedEpisodes, if_neg hne] at hmem
    rw [List.mem_filter] at hmem
    obtain ⟨-, hpred⟩ := hmem
    rw [Bool.not_eq_true'] at hpred
    have hkey : episodeRangeKey ep.startMessageId ep.endMessageId ∈
        processedRanges.map fun r => episodeRangeKey r.1 r.2 :=
      List.mem_map.mpr ⟨(ep.startMessageId, ep.endMessageId), hproc, rfl⟩
    have hkeyb : (processedRanges.map fun r => episodeRangeKey r.1 r.2).contains
        (episodeRangeKey ep.startMessageId ep.endMessageId) = true :=
      List.contains_iff_exists_mem_beq.mpr
        ⟨_, hkey, beq_self_eq_true _⟩
    rw [hkeyb] at hpred
    cases hpred
  · intro table row row' h1 h2 h3
    have hmatch : ∀ r : EpisodeLogRow,
        (r.sessionId == row'.sessionId &&
         r.startMessageId == row'.startMessageId &&
         r.endMessageId == row'.endMessageId) =
        (r.sessionId == row.sessionId &&
         r.startMessageId == row.startMessageId &&
         r.endMessageId == row.endMessageId) := by
      intro r
      rw [h1, h2, h3]
    unfold recordEpisode
    by_cases hpresent : table.any (fun r =>
        r.sessionId == row.sessionId &&
        r.startMessageId == row.startMessageId &&
        r.endMessageId == row.endMessageId)
    · rw [if_pos hpresent]
      simp only [hmatch]
      rw [if_pos hpresent]
    · rw [if_neg hpresent]
      have happ : (table ++ [row]).any (fun r =>
          r.sessionId == row'.sessionId &&
          r.startMessageId == row'.startMessageId &&
          r.endMessageId == row'.endMessageId) = true := by
        rw [List.any_append]
        apply Bool.or_eq_true_iff.mpr
        right
        simp [h1, h2, h3]
      rw [if_pos happ]

/-- Witness for the C9 theorem: a processed range excludes the matching
episode, and re-recording the same key is a no-op. -/
theorem episode_resumability_witness :
    (⟨"s1", "m1", "m2", "messages"⟩ : EpisodeSeg) ∉
      filterProcessedEpisodes [⟨"s1", "m1", "m2", "messages"⟩] [("m1", "m2")] ∧
    recordEpisode (recordEpisode [] ⟨"s1", "m1", "m2", "messages", 5, 0⟩)
        ⟨"s1", "m1", "m2", "compaction_summary", 9, 3⟩ =
      recordEpisode [] ⟨"s1", "m1", "m2", "messages", 5, 0⟩ :=
  ⟨episode_resumability.1 [⟨"s1", "m1", "m2", "messages"⟩] [("m1", "m2")]
      ⟨"s1", "m1", "m2", "messages"⟩ (List.mem_singleton.mpr rfl),
   episode_resumability.2 [] ⟨"s1", "m1", "m2", "messages", 5, 0⟩
      ⟨"s1", "m1", "m2", "compaction_summary", 9, 3⟩ rfl rfl rfl⟩

/-- Counterexample to claim C8 as stated: starting from three active entries,
make `x` and `y` an irresolvable pair, then let `x` win a later `merge` over
the candidate `n` with the merged data missing (a partial collaborator
response). The candidate is superseded by `x` — the pair member decisively
wins the resolution — yet `x` stays conflicted, its counterpart `y` is not
restored to active, and the `contradicts` relation of the pair survives: the
winner branch is guarded by `newConflictPartner && mergedData` in
`applyContradictionResolution`, so the restoration claimed for every
supersede/merge win does not happen here. -/
theorem contradiction_winner_partial_merge_counterexample :
    ((applyContradictionResolution
        (applyContradictionResolution pairWitnessDB .irresolvable "x" "y" none 1)
        .merge "x" "n" none 2).entries "n").map (fun e => e.status) =
      some EntryStatus.superseded ∧
    ((applyContradictionResolution
        (applyContradictionResolution pairWitnessDB .irresolvable "x" "y" none 1)
        .merge "x" "n" none 2).entries "n").map (fun e => e.supersededBy) =
      some (some "x") ∧
    ((applyContradictionResolution
        (applyContradictionResolution pairWitnessDB .irresolvable "x" "y" none 1)
        .merge "x" "n" none 2).entries "x").map (fun e => e.status) =
      some EntryStatus.conflicted ∧
    ((applyContradictionResolution
        (applyContradictionResolution pairWitnessDB .irresolvable "x" "y" none 1)
        .merge "x" "n" none 2).entries "y").map (fun e => e.status) =
      some EntryStatus.conflicted ∧
    (⟨"x", "y", RelType.contradicts, 1⟩ : RelRow) ∈
      (applyContradictionResolution
        (applyContradictionResolution pairWitnessDB .irresolvable "x" "y" none 1)
        .merge "x" "n" none 2).relations := by
  refine ⟨?_, ?_, ?_, ?_, ?_⟩ <;> decide
